import Mathlib

/-!
Verification of the orbital-bullseye relative-prediction core.

This file shallowly embeds the C++ core (src/core, src/models) in Lean 4 and
proves the frozen specification claims against the embedding.

Modelling conventions used throughout:

* A C++ `double` that the code may receive as a non-finite value (NaN/Inf) is
  modelled by the structure `Fd` below: a real value together with a Boolean
  finiteness flag.  `std::isfinite(x)` is embedded as the flag.  All of the
  code's comparisons on possibly-non-finite doubles are conjoined with an
  `isfinite` test in the same decision (so the NaN-vs-Inf distinction never
  influences an outcome), which is why a single flag is faithful.
* Arithmetic on values that the code has already checked to be finite is
  idealised as exact real arithmetic (`ℝ`); rounding error and overflow are
  outside the scope of the embedded claims, which concern statuses, control
  flow and exact algebraic identities.
* `const char*` frame-id pointers are modelled as `Option ℕ` (null = `none`,
  pointer equality = equality of the `ℕ` tag).
* Caller-owned output spans (`Span<Vec3>`) are modelled as `Option (List Vec3)`:
  `none` is a null data pointer, and the capacity is the list length.
-/

namespace OB

open Classical

noncomputable section

/-! ## Math kernel (src/core/types.hpp) -/

/-- 3-vector of (idealised) doubles, from `bullseye_pred::Vec3`. -/
@[ext]
structure Vec3 where
  x : ℝ
  y : ℝ
  z : ℝ

namespace Vec3

def add (a b : Vec3) : Vec3 := ⟨a.x + b.x, a.y + b.y, a.z + b.z⟩

def sub (a b : Vec3) : Vec3 := ⟨a.x - b.x, a.y - b.y, a.z - b.z⟩

def smul (s : ℝ) (v : Vec3) : Vec3 := ⟨s * v.x, s * v.y, s * v.z⟩

def zero : Vec3 := ⟨0, 0, 0⟩

end Vec3

/-- `dot` from types.hpp. -/
def dot (a b : Vec3) : ℝ := a.x * b.x + a.y * b.y + a.z * b.z

/-- `cross` from types.hpp. -/
def cross (a b : Vec3) : Vec3 :=
  ⟨a.y * b.z - a.z * b.y, a.z * b.x - a.x * b.z, a.x * b.y - a.y * b.x⟩

/-- `norm` from types.hpp: `std::sqrt(dot(v, v))`. -/
def vnorm (v : Vec3) : ℝ := Real.sqrt (dot v v)

/-- Row-major 3×3 matrix, from `bullseye_pred::Mat3` (`m[r][c]`). -/
@[ext]
structure Mat3 where
  m00 : ℝ
  m01 : ℝ
  m02 : ℝ
  m10 : ℝ
  m11 : ℝ
  m12 : ℝ
  m20 : ℝ
  m21 : ℝ
  m22 : ℝ

namespace Mat3

/-- `Mat3::identity()`. -/
def id3 : Mat3 := ⟨1, 0, 0, 0, 1, 0, 0, 0, 1⟩

end Mat3

/-- `mul(Mat3, Vec3)` from types.hpp. -/
def mulv (A : Mat3) (v : Vec3) : Vec3 :=
  ⟨A.m00 * v.x + A.m01 * v.y + A.m02 * v.z,
   A.m10 * v.x + A.m11 * v.y + A.m12 * v.z,
   A.m20 * v.x + A.m21 * v.y + A.m22 * v.z⟩

/-- `mul(Mat3, Mat3)` from types.hpp. -/
def mulm (A B : Mat3) : Mat3 :=
  ⟨A.m00 * B.m00 + A.m01 * B.m10 + A.m02 * B.m20,
   A.m00 * B.m01 + A.m01 * B.m11 + A.m02 * B.m21,
   A.m00 * B.m02 + A.m01 * B.m12 + A.m02 * B.m22,
   A.m10 * B.m00 + A.m11 * B.m10 + A.m12 * B.m20,
   A.m10 * B.m01 + A.m11 * B.m11 + A.m12 * B.m21,
   A.m10 * B.m02 + A.m11 * B.m12 + A.m12 * B.m22,
   A.m20 * B.m00 + A.m21 * B.m10 + A.m22 * B.m20,
   A.m20 * B.m01 + A.m21 * B.m11 + A.m22 * B.m21,
   A.m20 * B.m02 + A.m21 * B.m12 + A.m22 * B.m22⟩

/-- `transpose(Mat3)` from types.hpp. -/
def transpose (A : Mat3) : Mat3 :=
  ⟨A.m00, A.m10, A.m20, A.m01, A.m11, A.m21, A.m02, A.m12, A.m22⟩

/-- `det(Mat3)` from types.hpp (row-major cofactor expansion). -/
def det (A : Mat3) : ℝ :=
  A.m00 * (A.m11 * A.m22 - A.m12 * A.m21)
  - A.m01 * (A.m10 * A.m22 - A.m12 * A.m20)
  + A.m02 * (A.m10 * A.m21 - A.m11 * A.m20)

/-! ## Possibly-non-finite doubles and vectors -/

/-- A C++ `double` at an interface boundary: its value when finite, and a
finiteness flag embedding `std::isfinite`. -/
structure Fd where
  val : ℝ
  fin : Bool

/-- A finite double. -/
def fd (x : ℝ) : Fd := ⟨x, true⟩

/-- A `Vec3` at an interface boundary, with per-component finiteness flags
(the code tests components individually, e.g. `isfinite(omega_ric.z)`). -/
structure FVec3 where
  x : Fd
  y : Fd
  z : Fd

namespace FVec3

/-- The component values. -/
def val (v : FVec3) : Vec3 := ⟨v.x.val, v.y.val, v.z.val⟩

/-- `is_finite_vec` / `finite3` / `finite_vec` from the sources. -/
def finAll (v : FVec3) : Prop := v.x.fin = true ∧ v.y.fin = true ∧ v.z.fin = true

/-- A finite vector at a boundary. -/
def ofVec (v : Vec3) : FVec3 := ⟨fd v.x, fd v.y, fd v.z⟩

end FVec3

/-! ## Status codes and common payloads (src/core/types.hpp) -/

/-- `bullseye_pred::ProviderCode`. -/
inductive ProviderCode
  | kOk
  | kTimeMissing
  | kFrameMismatch
  | kNotAvailable
  | kInvalidInput
  | kInternalError
deriving DecidableEq

/-- `ProviderStatus::ok()`. -/
def ProviderCode.ok (c : ProviderCode) : Prop := c = ProviderCode.kOk

/-- `bullseye_pred::OmegaCoords`. -/
inductive OmegaCoords
  | kUnspecified
  | kOmegaRIC
  | kOmegaInertial
deriving DecidableEq

/-- `bullseye_pred::FrameKind`. -/
inductive FrameKind
  | kUnspecified
  | kBullseyeRIC
deriving DecidableEq

/-- `bullseye_pred::AxisOrder`. -/
inductive AxisOrder
  | kUnspecified
  | kRIC
deriving DecidableEq

/-- `bullseye_pred::ChiefState`. -/
structure ChiefState where
  time_tag : Fd
  r_i : FVec3
  v_i : FVec3
  frame_id : Option ℕ
  status : ProviderCode

/-- `bullseye_pred::AdoptedRicFrame`.  `cFin` embeds `finite_mat` for the DCM
(the code only ever tests all nine entries together). -/
structure AdoptedRicFrame where
  time_tag : Fd
  origin_i : FVec3
  C_from_ric_to_inertial : Mat3
  cFin : Bool
  has_omega : Bool
  omega_ric : FVec3
  omega_coords : OmegaCoords
  frame_kind : FrameKind
  axis_order : AxisOrder
  frame_source_id : Option ℕ
  status : ProviderCode

/-! ## Frame transforms (src/core/frame_transforms.cpp) -/

/-- `bullseye_pred::RelState`. -/
structure RelState where
  r : Vec3
  v : Vec3

/-- `inertial_to_ric_relative` from frame_transforms.cpp. -/
def inertial_to_ric_relative (veh_r_i veh_v_i chief_r_i chief_v_i : Vec3)
    (C_from_inertial_to_ric : Mat3) (omega_ric : Vec3) : RelState :=
  let dr_i := veh_r_i.sub chief_r_i
  let dv_i := veh_v_i.sub chief_v_i
  let r_ric := mulv C_from_inertial_to_ric dr_i
  let v_ric := (mulv C_from_inertial_to_ric dv_i).sub (cross omega_ric r_ric)
  ⟨r_ric, v_ric⟩

/-- `ric_to_inertial_relative` from frame_transforms.cpp. -/
def ric_to_inertial_relative (rel_r_ric rel_v_ric chief_r_i chief_v_i : Vec3)
    (C_from_ric_to_inertial : Mat3) (omega_ric : Vec3) : RelState :=
  let dr_i := mulv C_from_ric_to_inertial rel_r_ric
  let dv_i := mulv C_from_ric_to_inertial (rel_v_ric.add (cross omega_ric rel_r_ric))
  ⟨chief_r_i.add dr_i, chief_v_i.add dv_i⟩

/-! Basic algebra lemmas for the kernel. -/

theorem mulv_mulm (A B : Mat3) (v : Vec3) : mulv (mulm A B) v = mulv A (mulv B v) := by
  simp only [mulv, mulm]
  ext <;> ring

theorem mulv_id3 (v : Vec3) : mulv Mat3.id3 v = v := by
  simp only [mulv, Mat3.id3]
  ext <;> ring

theorem sub_add_cancel3 (a b : Vec3) : (a.sub b).add b = a := by
  simp only [Vec3.sub, Vec3.add]
  ext <;> ring

theorem add_sub_cancel3 (a b : Vec3) : b.add (a.sub b) = a := by
  simp only [Vec3.sub, Vec3.add]
  ext <;> ring

/-- **C2.** Round-trip identity of the RIC relative transforms: for any finite
chief/deputy inertial states and RIC angular velocity, if the DCM
`C_from_ric_to_inertial` is orthonormal (`C·Cᵗ = I`) and
`C_from_inertial_to_ric` is its transpose, then applying
`inertial_to_ric_relative` followed by `ric_to_inertial_relative` returns the
original deputy inertial position and velocity exactly. -/
theorem ric_round_trip_identity (veh_r_i veh_v_i chief_r_i chief_v_i omega_ric : Vec3)
    (C : Mat3) (horth : mulm C (transpose C) = Mat3.id3) :
    ric_to_inertial_relative
      (inertial_to_ric_relative veh_r_i veh_v_i chief_r_i chief_v_i (transpose C) omega_ric).r
      (inertial_to_ric_relative veh_r_i veh_v_i chief_r_i chief_v_i (transpose C) omega_ric).v
      chief_r_i chief_v_i C omega_ric = ⟨veh_r_i, veh_v_i⟩ := by
  simp only [inertial_to_ric_relative, ric_to_inertial_relative]
  have hC : ∀ w : Vec3, mulv C (mulv (transpose C) w) = w := by
    intro w
    rw [← mulv_mulm, horth, mulv_id3]
  congr 1
  · -- position component
    rw [hC]
    exact add_sub_cancel3 veh_r_i chief_r_i
  · -- velocity component: the ω×r correction cancels exactly
    rw [sub_add_cancel3, hC]
    exact add_sub_cancel3 veh_v_i chief_v_i

/-- Witness for C2 at a concrete input: the identity DCM is orthonormal and the
round trip returns the deputy state unchanged. -/
theorem ric_round_trip_identity_witness :
    mulm Mat3.id3 (transpose Mat3.id3) = Mat3.id3 ∧
    ric_to_inertial_relative
      (inertial_to_ric_relative ⟨1, 2, 3⟩ ⟨4, 5, 6⟩ ⟨7, 8, 9⟩ ⟨1, 0, 0⟩
        (transpose Mat3.id3) ⟨0, 0, 2⟩).r
      (inertial_to_ric_relative ⟨1, 2, 3⟩ ⟨4, 5, 6⟩ ⟨7, 8, 9⟩ ⟨1, 0, 0⟩
        (transpose Mat3.id3) ⟨0, 0, 2⟩).v
      ⟨7, 8, 9⟩ ⟨1, 0, 0⟩ Mat3.id3 ⟨0, 0, 2⟩ = ⟨⟨1, 2, 3⟩, ⟨4, 5, 6⟩⟩ := by
  have h : mulm Mat3.id3 (transpose Mat3.id3) = Mat3.id3 := by
    simp only [mulm, transpose, Mat3.id3]
    ext <;> norm_num
  exact ⟨h, ric_round_trip_identity ⟨1, 2, 3⟩ ⟨4, 5, 6⟩ ⟨7, 8, 9⟩ ⟨1, 0, 0⟩ ⟨0, 0, 2⟩ Mat3.id3 h⟩

/-! ## Publisher (src/core/publisher.cpp, src/core/prediction_buffer.hpp) -/

/-- `bullseye::PredictionBuffer`.  Rows are modelled as lists of predicted
positions indexed by vehicle index (row `i` is `positions i`). -/
structure PredictionBuffer where
  seqno : ℕ
  t0 : Fd
  positions : ℕ → List Vec3

/-- `bullseye::Publisher`: two buffers, a front index and a monotonic
sequence counter. -/
structure Publisher where
  bufs : Fin 2 → PredictionBuffer
  front : Fin 2
  seqno : ℕ

namespace Publisher

/-- The zero-initialised publisher (`Publisher() = default` with
value-initialised members). -/
def init : Publisher :=
  ⟨fun _ => ⟨0, ⟨0, true⟩, fun _ => List.replicate 64 Vec3.zero⟩, 0, 0⟩

/-- `Publisher::begin_write()`: the buffer that is not the current front. -/
def begin_write (s : Publisher) : PredictionBuffer := s.bufs (1 - s.front)

/-- `Publisher::publish(t0)`: stamp `{seqno+1, t0}` into the back buffer and
make it the new front. -/
def publish (s : Publisher) (t0 : Fd) : Publisher :=
  let back := 1 - s.front
  let new_seq := s.seqno + 1
  ⟨Function.update s.bufs back { s.bufs back with seqno := new_seq, t0 := t0 },
   back, new_seq⟩

/-- `Publisher::read()`: the current front buffer. -/
def read (s : Publisher) : PredictionBuffer := s.bufs s.front

/-- `Publisher::published_seqno()`: the seqno stamped in the front buffer. -/
def published_seqno (s : Publisher) : ℕ := (read s).seqno

/-- The producer filling the back buffer through `begin_write()` (the
predictor only writes `positions`). -/
def fill_back (s : Publisher) (p : ℕ → List Vec3) : Publisher :=
  let back := 1 - s.front
  ⟨Function.update s.bufs back { s.bufs back with positions := p }, s.front, s.seqno⟩

end Publisher

/-- One producer-side operation between reads: either fill the back buffer or
publish at some epoch. -/
inductive PubOp
  | fill (p : ℕ → List Vec3)
  | pub (t0 : Fd)

/-- Run a sequence of producer operations. -/
def runPubOps : List PubOp → Publisher → Publisher
  | [], s => s
  | PubOp.fill p :: rest, s => runPubOps rest (s.fill_back p)
  | PubOp.pub t0 :: rest, s => runPubOps rest (s.publish t0)

/-- The number of publish calls in an operation sequence. -/
def countPubs : List PubOp → ℕ
  | [] => 0
  | PubOp.fill _ :: rest => countPubs rest
  | PubOp.pub _ :: rest => countPubs rest + 1

theorem fin2_one_sub_ne (i : Fin 2) : 1 - i ≠ i := by
  fin_cases i <;> decide

/-- The published seqno always equals the internal counter. -/
theorem publisher_front_seqno_inv (ops : List PubOp) (s : Publisher)
    (h : s.published_seqno = s.seqno) :
    (runPubOps ops s).published_seqno = (runPubOps ops s).seqno := by
  induction ops generalizing s with
  | nil => exact h
  | cons op rest ih =>
    cases op with
    | fill p =>
      refine ih _ ?_
      simp only [Publisher.fill_back, Publisher.published_seqno, Publisher.read] at *
      rwa [Function.update_noteq (fin2_one_sub_ne s.front).symm]
    | pub t0 =>
      refine ih _ ?_
      simp only [Publisher.publish, Publisher.published_seqno, Publisher.read]
      rw [Function.update_same]

/-- The internal counter counts exactly the publish calls. -/
theorem publisher_counter_counts (ops : List PubOp) (s : Publisher) :
    (runPubOps ops s).seqno = s.seqno + countPubs ops := by
  induction ops generalizing s with
  | nil => simp [runPubOps, countPubs]
  | cons op rest ih =>
    cases op with
    | fill p => simp [runPubOps, countPubs, ih, Publisher.fill_back]
    | pub t0 =>
      simp only [runPubOps, countPubs, ih, Publisher.publish]
      omega

/-- **C7.** (1) Starting from the initial publisher state, any interleaving of
back-buffer fills and `N` publish calls leaves `published_seqno()` equal to
`N`.  (2) A `publish` call never mutates the buffer that was front when the
call began (the buffer any earlier `read()` refers to): it writes only the
back buffer. -/
theorem publisher_seqno_and_front_immutable :
    (∀ ops : List PubOp,
        (runPubOps ops Publisher.init).published_seqno = countPubs ops) ∧
    (∀ (s : Publisher) (t0 : Fd), (s.publish t0).bufs s.front = s.bufs s.front) := by
  constructor
  · intro ops
    have h0 : Publisher.init.published_seqno = Publisher.init.seqno := rfl
    rw [publisher_front_seqno_inv ops Publisher.init h0, publisher_counter_counts]
    simp [Publisher.init]
  · intro s t0
    simp only [Publisher.publish]
    rw [Function.update_noteq (fin2_one_sub_ne s.front).symm]

/-! ## Adopted-frame validator (src/core/bullseye_frame_validator.cpp) -/

/-- `bullseye_pred::FrameValidationTolerances`. -/
structure FrameValidationTolerances where
  center_abs_m : ℝ
  center_rel : ℝ
  ortho_max_abs : ℝ
  det_one_abs : ℝ

/-- The v1 default tolerances from bullseye_frame_validator.hpp. -/
def defaultTol : FrameValidationTolerances := ⟨1e-6, 1e-12, 1e-12, 1e-12⟩

/-- `bullseye_pred::FrameValidationReason`. -/
inductive FrameValidationReason
  | kOk
  | kChiefNotOk
  | kFrameNotOk
  | kTimeMismatch
  | kBadDeclaration
  | kCenteringMismatch
  | kNotOrthonormal
  | kNotRightHanded
  | kOmegaBadDeclaration
  | kNonFinite
deriving DecidableEq

/-- `bullseye_pred::FrameValidationResult`. -/
structure FrameValidationResult where
  status : ProviderCode
  reason : FrameValidationReason
deriving DecidableEq

/-- `max_abs_CCt_minus_I` from bullseye_frame_validator.cpp: largest absolute
element of `C·Cᵗ − I` (the code's running maximum starts at `0.0`, and all nine
candidates are non-negative). -/
def max_abs_CCt_minus_I (C : Mat3) : ℝ :=
  let M := mulm C (transpose C)
  [|M.m00 - 1|, |M.m01|, |M.m02|,
   |M.m10|, |M.m11 - 1|, |M.m12|,
   |M.m20|, |M.m21|, |M.m22 - 1|].foldl max 0

/-- `center_bound` from bullseye_frame_validator.cpp. -/
def center_bound (chief_r_i : Vec3) (abs_m rel : ℝ) : ℝ :=
  abs_m + rel * vnorm chief_r_i

/-- The finiteness condition of the validator's first non-finite check
(everything except ω). -/
def validatorInputsFinite (t0 : Fd) (chief : ChiefState) (frame : AdoptedRicFrame) : Prop :=
  t0.fin = true ∧ chief.time_tag.fin = true ∧ frame.time_tag.fin = true ∧
  chief.r_i.finAll ∧ chief.v_i.finAll ∧ frame.origin_i.finAll ∧ frame.cFin = true

/-- `validate_adopted_bullseye_ric_frame` from bullseye_frame_validator.cpp:
the fixed-order, short-circuiting check chain. -/
def validate_adopted_bullseye_ric_frame (t0 : Fd) (chief : ChiefState)
    (frame : AdoptedRicFrame) (tol : FrameValidationTolerances) : FrameValidationResult :=
  if ¬chief.status.ok then
    ⟨ProviderCode.kInvalidInput, FrameValidationReason.kChiefNotOk⟩
  else if ¬frame.status.ok then
    ⟨ProviderCode.kInvalidInput, FrameValidationReason.kFrameNotOk⟩
  else if ¬validatorInputsFinite t0 chief frame then
    ⟨ProviderCode.kInvalidInput, FrameValidationReason.kNonFinite⟩
  else if frame.has_omega = true ∧ ¬frame.omega_ric.finAll then
    ⟨ProviderCode.kInvalidInput, FrameValidationReason.kNonFinite⟩
  else if ¬(frame.time_tag.val = t0.val) then
    ⟨ProviderCode.kTimeMissing, FrameValidationReason.kTimeMismatch⟩
  else if frame.frame_kind ≠ FrameKind.kBullseyeRIC ∨ frame.axis_order ≠ AxisOrder.kRIC then
    ⟨ProviderCode.kInvalidInput, FrameValidationReason.kBadDeclaration⟩
  else if ¬(vnorm (frame.origin_i.val.sub chief.r_i.val) ≤
      center_bound chief.r_i.val tol.center_abs_m tol.center_rel) then
    ⟨ProviderCode.kInvalidInput, FrameValidationReason.kCenteringMismatch⟩
  else if ¬(max_abs_CCt_minus_I frame.C_from_ric_to_inertial ≤ tol.ortho_max_abs) then
    ⟨ProviderCode.kInvalidInput, FrameValidationReason.kNotOrthonormal⟩
  else if ¬(|det frame.C_from_ric_to_inertial - 1| ≤ tol.det_one_abs) then
    ⟨ProviderCode.kInvalidInput, FrameValidationReason.kNotRightHanded⟩
  else if frame.has_omega = true ∧ frame.omega_coords ≠ OmegaCoords.kOmegaRIC then
    ⟨ProviderCode.kInvalidInput, FrameValidationReason.kOmegaBadDeclaration⟩
  else
    ⟨ProviderCode.kOk, FrameValidationReason.kOk⟩

/-- First failing check of an ordered list of (condition, status, reason)
triples; all checks passing yields the ok result.  This is the spec's reading
of the validator: a fixed check order with short-circuit on first failure. -/
def firstFailure : List (Prop × ProviderCode × FrameValidationReason) → FrameValidationResult
  | [] => ⟨ProviderCode.kOk, FrameValidationReason.kOk⟩
  | (p, c, r) :: rest => if p then ⟨c, r⟩ else firstFailure rest

/-- The validator's check list in the order stated by the spec:
chief-not-ok, frame-not-ok, any-non-finite-input, exact time match,
declarations, centering, orthonormality, handedness, ω declaration. -/
def validatorCheckList (t0 : Fd) (chief : ChiefState) (frame : AdoptedRicFrame)
    (tol : FrameValidationTolerances) :
    List (Prop × ProviderCode × FrameValidationReason) :=
  [(¬chief.status.ok,
      ProviderCode.kInvalidInput, FrameValidationReason.kChiefNotOk),
   (¬frame.status.ok,
      ProviderCode.kInvalidInput, FrameValidationReason.kFrameNotOk),
   (¬validatorInputsFinite t0 chief frame ∨ (frame.has_omega = true ∧ ¬frame.omega_ric.finAll),
      ProviderCode.kInvalidInput, FrameValidationReason.kNonFinite),
   (¬(frame.time_tag.val = t0.val),
      ProviderCode.kTimeMissing, FrameValidationReason.kTimeMismatch),
   (frame.frame_kind ≠ FrameKind.kBullseyeRIC ∨ frame.axis_order ≠ AxisOrder.kRIC,
      ProviderCode.kInvalidInput, FrameValidationReason.kBadDeclaration),
   (¬(vnorm (frame.origin_i.val.sub chief.r_i.val) ≤
        center_bound chief.r_i.val tol.center_abs_m tol.center_rel),
      ProviderCode.kInvalidInput, FrameValidationReason.kCenteringMismatch),
   (¬(max_abs_CCt_minus_I frame.C_from_ric_to_inertial ≤ tol.ortho_max_abs),
      ProviderCode.kInvalidInput, FrameValidationReason.kNotOrthonormal),
   (¬(|det frame.C_from_ric_to_inertial - 1| ≤ tol.det_one_abs),
      ProviderCode.kInvalidInput, FrameValidationReason.kNotRightHanded),
   (frame.has_omega = true ∧ frame.omega_coords ≠ OmegaCoords.kOmegaRIC,
      ProviderCode.kInvalidInput, FrameValidationReason.kOmegaBadDeclaration)]

/-- **C4.** The validator is exactly the first-failure evaluation of its fixed
ordered check list (so the checks run in the order chief-not-ok, frame-not-ok,
any-non-finite-input, exact time match with no tolerance, declarations,
centering, orthonormality, handedness, ω declaration, and short-circuit at the
first failure — a single induced violation yields that check's reason with all
earlier checks passing), and the nine reason codes are pairwise distinct. -/
theorem validator_fixed_order_first_failure (t0 : Fd) (chief : ChiefState)
    (frame : AdoptedRicFrame) (tol : FrameValidationTolerances) :
    validate_adopted_bullseye_ric_frame t0 chief frame tol =
      firstFailure (validatorCheckList t0 chief frame tol) ∧
    ((validatorCheckList t0 chief frame tol).map (fun e => e.2.2)).Pairwise (· ≠ ·) := by
  constructor
  · simp only [validate_adopted_bullseye_ric_frame, validatorCheckList, firstFailure]
    by_cases h1 : ¬chief.status.ok
    · rw [if_pos h1, if_pos h1]
    · rw [if_neg h1, if_neg h1]
      by_cases h2 : ¬frame.status.ok
      · rw [if_pos h2, if_pos h2]
      · rw [if_neg h2, if_neg h2]
        by_cases h3 : ¬validatorInputsFinite t0 chief frame
        · rw [if_pos h3, if_pos (Or.inl h3)]
        · rw [if_neg h3]
          by_cases h4 : frame.has_omega = true ∧ ¬frame.omega_ric.finAll
          · rw [if_pos h4, if_pos (Or.inr h4)]
          · rw [if_neg h4, if_neg (by tauto :
              ¬(¬validatorInputsFinite t0 chief frame ∨
                (frame.has_omega = true ∧ ¬frame.omega_ric.finAll)))]
  · simp only [validatorCheckList, List.map_cons, List.map_nil]
    decide

/-! ## Contracts (src/core/contracts.hpp) -/

namespace contracts

/-- `contracts::Tol::kRmin_m`. -/
def kRmin_m : ℝ := 1.0

/-- `contracts::Tol::kVmin_mps`. -/
def kVmin_mps : ℝ := 1e-6

/-- `contracts::Tol::kHhatMin`. -/
def kHhatMin : ℝ := 1e-10

/-- `contracts::Adopted::OnAdoptedInvalid`. -/
inductive OnAdoptedInvalid
  | kAbortTick
  | kFallbackConstructedDegraded
deriving DecidableEq

/-- `contracts::Adopted::kOnAdoptedInvalid` (v1 default: fall back to the
constructed frame and mark degraded). -/
def kOnAdoptedInvalid : OnAdoptedInvalid := OnAdoptedInvalid.kFallbackConstructedDegraded

/-- `contracts::Adopted::DegradeReason`, a `std::uint32_t` bitmask modelled as
`ℕ`; `operator|` is `Nat.lor`. -/
def DegradeReason := ℕ

/-- `DegradeReason::kNone`. -/
def dgNone : ℕ := 0

/-- `DegradeReason::kAdoptedInvalid = 1u << 0`. -/
def dgAdoptedInvalid : ℕ := 1

/-- `DegradeReason::kDegenerateChief = 1u << 1`. -/
def dgDegenerateChief : ℕ := 2

end contracts

/-! ## Constructed RIC frame (src/core/bullseye_frame_math.cpp) -/

/-- `bullseye_pred::ConstructedRicFrame` (with its in-class defaults). -/
structure ConstructedRicFrame where
  time_tag : Fd
  origin_i : FVec3
  C_from_ric_to_inertial : Mat3
  omega_ric : Vec3
  has_omega : Bool
  omega_coords : OmegaCoords
  frame_kind : FrameKind
  axis_order : AxisOrder
  status : ProviderCode

/-- The default-initialised `ConstructedRicFrame` fields other than
`time_tag`/`origin_i` (which the function assigns first). -/
def constructedBase (time_tag : Fd) (origin_i : FVec3) (status : ProviderCode) :
    ConstructedRicFrame :=
  ⟨time_tag, origin_i, Mat3.id3, Vec3.zero, true, OmegaCoords.kOmegaRIC,
   FrameKind.kBullseyeRIC, AxisOrder.kRIC, status⟩

/-- `unit_or_fail` from bullseye_frame_math.cpp: normalise `v` by a
precomputed norm `n`, reporting failure when `n` is not positive (the
`isfinite` half of the guard is identically true in the real-number
idealisation). -/
def unit_or_fail (v : Vec3) (n : ℝ) : Vec3 × Bool :=
  if n > 0 then (Vec3.smul (1 / n) v, true) else (Vec3.zero, false)

/-- `construct_ric_from_chief` from bullseye_frame_math.cpp. -/
def construct_ric_from_chief (chief : ChiefState) : ConstructedRicFrame :=
  if ¬chief.status.ok then
    constructedBase chief.time_tag chief.r_i ProviderCode.kNotAvailable
  else if ¬(chief.r_i.finAll ∧ chief.v_i.finAll) then
    constructedBase chief.time_tag chief.r_i ProviderCode.kInvalidInput
  else
    let r := chief.r_i.val
    let v := chief.v_i.val
    let r_norm := vnorm r
    let v_norm := vnorm v
    if ¬(r_norm ≥ contracts.kRmin_m) ∨ ¬(v_norm ≥ contracts.kVmin_mps) then
      constructedBase chief.time_tag chief.r_i ProviderCode.kNotAvailable
    else
      let h := cross r v
      let h_norm := vnorm h
      let h_hat := h_norm / (r_norm * v_norm)
      if ¬(h_hat ≥ contracts.kHhatMin) then
        constructedBase chief.time_tag chief.r_i ProviderCode.kNotAvailable
      else
        let eR := unit_or_fail r r_norm
        let eC0 := unit_or_fail h h_norm
        let t := cross h r
        let t_norm := vnorm t
        let eI0 := unit_or_fail t t_norm
        let c := cross eR.1 eI0.1
        let c_norm := vnorm c
        let eC := unit_or_fail c c_norm
        let i := cross eC.1 eR.1
        let i_norm := vnorm i
        let eI := unit_or_fail i i_norm
        let ok := eR.2 && eC0.2 && eI0.2 && eC.2 && eI.2
        if ¬(ok = true) then
          constructedBase chief.time_tag chief.r_i ProviderCode.kInternalError
        else
          let C : Mat3 :=
            ⟨eR.1.x, eI.1.x, eC.1.x,
             eR.1.y, eI.1.y, eC.1.y,
             eR.1.z, eI.1.z, eC.1.z⟩
          let omega_mag := h_norm / (r_norm * r_norm)
          { constructedBase chief.time_tag chief.r_i ProviderCode.kOk with
            C_from_ric_to_inertial := C,
            omega_ric := ⟨0, 0, omega_mag⟩ }

/-! Algebraic toolkit for the constructed-frame proofs. -/

theorem dot_comm3 (a b : Vec3) : dot a b = dot b a := by
  simp only [dot]; ring

theorem dot_self_nonneg (v : Vec3) : 0 ≤ dot v v := by
  simp only [dot]
  nlinarith [sq_nonneg v.x, sq_nonneg v.y, sq_nonneg v.z]

theorem vnorm_nonneg (v : Vec3) : 0 ≤ vnorm v := Real.sqrt_nonneg _

theorem sq_vnorm (v : Vec3) : vnorm v * vnorm v = dot v v :=
  Real.mul_self_sqrt (dot_self_nonneg v)

theorem dot_smul_smul (s u : ℝ) (a b : Vec3) :
    dot (Vec3.smul s a) (Vec3.smul u b) = s * u * dot a b := by
  simp only [dot, Vec3.smul]; ring

theorem vnorm_smul_of_nonneg (s : ℝ) (hs : 0 ≤ s) (v : Vec3) :
    vnorm (Vec3.smul s v) = s * vnorm v := by
  simp only [vnorm]
  rw [show dot (Vec3.smul s v) (Vec3.smul s v) = s ^ 2 * dot v v by
        rw [dot_smul_smul]; ring,
      Real.sqrt_mul (sq_nonneg s), Real.sqrt_sq hs]

theorem dot_cross_left (a b : Vec3) : dot (cross a b) a = 0 := by
  simp only [dot, cross]; ring

theorem dot_cross_right (a b : Vec3) : dot (cross a b) b = 0 := by
  simp only [dot, cross]; ring

theorem dot_self_cross (a b : Vec3) : dot a (cross a b) = 0 := by
  simp only [dot, cross]; ring

theorem lagrange_cross (a b : Vec3) :
    dot (cross a b) (cross a b) = dot a a * dot b b - dot a b * dot a b := by
  simp only [dot, cross]; ring

theorem cross_smul_smul (s u : ℝ) (a b : Vec3) :
    cross (Vec3.smul s a) (Vec3.smul u b) = Vec3.smul (s * u) (cross a b) := by
  simp only [cross, Vec3.smul]; ext <;> ring

theorem triple_a_ba (a b : Vec3) :
    cross a (cross b a) = (Vec3.smul (dot a a) b).sub (Vec3.smul (dot a b) a) := by
  simp only [cross, dot, Vec3.smul, Vec3.sub]; ext <;> ring

theorem triple_ba_b (a b : Vec3) :
    cross (cross b a) b = (Vec3.smul (dot b b) a).sub (Vec3.smul (dot a b) b) := by
  simp only [cross, dot, Vec3.smul, Vec3.sub]; ext <;> ring

theorem smul_one_vec (v : Vec3) : Vec3.smul 1 v = v := by
  simp only [Vec3.smul]; ext <;> ring

theorem sub_zero_smul (a : Vec3) (b : Vec3) :
    (a.sub (Vec3.smul 0 b)) = a := by
  simp only [Vec3.sub, Vec3.smul]
  ext <;> dsimp only <;> ring

/-- A 3×3 matrix whose columns are `a`, `b`, `c`. -/
def ricColumns (a b c : Vec3) : Mat3 :=
  ⟨a.x, b.x, c.x, a.y, b.y, c.y, a.z, b.z, c.z⟩

theorem det_ricColumns (a b c : Vec3) :
    det (ricColumns a b c) = dot a (cross b c) := by
  simp only [det, ricColumns, dot, cross]; ring

theorem transpose_mul_ricColumns (a b c : Vec3) :
    mulm (transpose (ricColumns a b c)) (ricColumns a b c) =
      ⟨dot a a, dot a b, dot a c, dot b a, dot b b, dot b c, dot c a, dot c b, dot c c⟩ := by
  simp only [mulm, transpose, ricColumns, dot]

/-- Classical adjugate of a 3×3 matrix (cofactor transpose). -/
def adjm (A : Mat3) : Mat3 :=
  ⟨A.m11 * A.m22 - A.m12 * A.m21,
   -(A.m01 * A.m22 - A.m02 * A.m21),
   A.m01 * A.m12 - A.m02 * A.m11,
   -(A.m10 * A.m22 - A.m12 * A.m20),
   A.m00 * A.m22 - A.m02 * A.m20,
   -(A.m00 * A.m12 - A.m02 * A.m10),
   A.m10 * A.m21 - A.m11 * A.m20,
   -(A.m00 * A.m21 - A.m01 * A.m20),
   A.m00 * A.m11 - A.m01 * A.m10⟩

/-- Entrywise scalar multiple of a matrix. -/
def smulm (s : ℝ) (A : Mat3) : Mat3 :=
  ⟨s * A.m00, s * A.m01, s * A.m02, s * A.m10, s * A.m11, s * A.m12,
   s * A.m20, s * A.m21, s * A.m22⟩

theorem mulm_adjm (A : Mat3) : mulm A (adjm A) = smulm (det A) Mat3.id3 := by
  simp only [mulm, adjm, smulm, det, Mat3.id3]; ext <;> ring

theorem mulm_assoc (A B C : Mat3) : mulm (mulm A B) C = mulm A (mulm B C) := by
  simp only [mulm]; ext <;> ring

theorem mulm_id3_left (A : Mat3) : mulm Mat3.id3 A = A := by
  simp only [mulm, Mat3.id3]; ext <;> ring

theorem mulm_id3_right (A : Mat3) : mulm A Mat3.id3 = A := by
  simp only [mulm, Mat3.id3]; ext <;> ring

theorem smulm_one (A : Mat3) : smulm 1 A = A := by
  simp only [smulm]; ext <;> ring

/-- If `Aᵗ·A = I` and `det A = 1`, then `A·Aᵗ = I` (via the adjugate). -/
theorem mul_transpose_of_transpose_mul (A : Mat3)
    (h1 : mulm (transpose A) A = Mat3.id3) (h2 : det A = 1) :
    mulm A (transpose A) = Mat3.id3 := by
  have hadj : adjm A = transpose A := by
    calc adjm A = mulm Mat3.id3 (adjm A) := (mulm_id3_left _).symm
    _ = mulm (mulm (transpose A) A) (adjm A) := by rw [h1]
    _ = mulm (transpose A) (mulm A (adjm A)) := mulm_assoc _ _ _
    _ = mulm (transpose A) (smulm (det A) Mat3.id3) := by rw [mulm_adjm]
    _ = mulm (transpose A) Mat3.id3 := by rw [h2, smulm_one]
    _ = transpose A := mulm_id3_right _
  calc mulm A (transpose A) = mulm A (adjm A) := by rw [hadj]
  _ = smulm (det A) Mat3.id3 := mulm_adjm A
  _ = Mat3.id3 := by rw [h2, smulm_one]

theorem max_abs_of_identity (C : Mat3) (h : mulm C (transpose C) = Mat3.id3) :
    max_abs_CCt_minus_I C = 0 := by
  simp only [max_abs_CCt_minus_I, h, Mat3.id3]
  norm_num [List.foldl]

theorem smul_smul_vec (s u : ℝ) (v : Vec3) :
    Vec3.smul s (Vec3.smul u v) = Vec3.smul (s * u) v := by
  simp only [Vec3.smul]; ext <;> dsimp only <;> ring

theorem unit_or_fail_pos (v : Vec3) (n : ℝ) (h : 0 < n) :
    unit_or_fail v n = (Vec3.smul (1 / n) v, true) := by
  simp [unit_or_fail, h]

/-- The DCM `construct_ric_from_chief` assembles on its success path:
columns `eR = r/‖r‖`, `eI = (h×r)/(‖h‖‖r‖)`, `eC = h/‖h‖` with `h = r×v`. -/
def ricC (r v : Vec3) : Mat3 :=
  ricColumns (Vec3.smul (1 / vnorm r) r)
    (Vec3.smul (1 / (vnorm (cross r v) * vnorm r)) (cross (cross r v) r))
    (Vec3.smul (1 / vnorm (cross r v)) (cross r v))

/-- `‖h×r‖ = ‖h‖·‖r‖` when `h ⊥ r`; instantiated at `h = r×v`. -/
theorem vnorm_t_eq (r v : Vec3) :
    vnorm (cross (cross r v) r) = vnorm (cross r v) * vnorm r := by
  have hperp : dot (cross r v) r = 0 := dot_cross_left r v
  have : dot (cross (cross r v) r) (cross (cross r v) r) =
      dot (cross r v) (cross r v) * dot r r := by
    rw [lagrange_cross, hperp]; ring
  rw [vnorm, this, Real.sqrt_mul (dot_self_nonneg _)]
  rfl

/-- Success form of `construct_ric_from_chief`: when the chief passes all
degeneracy gates, the result is ok with the explicit orthonormal triad and
`ω = (0, 0, ‖r×v‖/‖r‖²)`. -/
theorem construct_ric_success (ch : ChiefState) (hok : ch.status.ok)
    (hfr : ch.r_i.finAll) (hfv : ch.v_i.finAll)
    (hr : vnorm ch.r_i.val ≥ contracts.kRmin_m)
    (hv : vnorm ch.v_i.val ≥ contracts.kVmin_mps)
    (hh : vnorm (cross ch.r_i.val ch.v_i.val) /
        (vnorm ch.r_i.val * vnorm ch.v_i.val) ≥ contracts.kHhatMin) :
    construct_ric_from_chief ch =
      { constructedBase ch.time_tag ch.r_i ProviderCode.kOk with
        C_from_ric_to_inertial := ricC ch.r_i.val ch.v_i.val,
        omega_ric := ⟨0, 0, vnorm (cross ch.r_i.val ch.v_i.val) /
          (vnorm ch.r_i.val * vnorm ch.r_i.val)⟩ } := by
  set r := ch.r_i.val with hrdef
  set v := ch.v_i.val with hvdef
  have hrn : 0 < vnorm r := by
    have h := hr
    norm_num [contracts.kRmin_m, ge_iff_le] at h
    linarith
  have hvn : 0 < vnorm v := by
    have h := hv
    norm_num [contracts.kVmin_mps, ge_iff_le] at h
    linarith
  have hrvpos : 0 < vnorm r * vnorm v := mul_pos hrn hvn
  have hhn : 0 < vnorm (cross r v) := by
    have h1 := hh
    norm_num [contracts.kHhatMin, ge_iff_le] at h1
    have h2 := (le_div_iff₀ hrvpos).mp h1
    nlinarith
  have hrne : vnorm r ≠ 0 := ne_of_gt hrn
  have hhne : vnorm (cross r v) ≠ 0 := ne_of_gt hhn
  have htn : 0 < vnorm (cross (cross r v) r) := by
    rw [vnorm_t_eq]; exact mul_pos hhn hrn
  have e1 : unit_or_fail r (vnorm r) = (Vec3.smul (1 / vnorm r) r, true) :=
    unit_or_fail_pos _ _ hrn
  have e2 : unit_or_fail (cross r v) (vnorm (cross r v)) =
      (Vec3.smul (1 / vnorm (cross r v)) (cross r v), true) :=
    unit_or_fail_pos _ _ hhn
  have e3 : unit_or_fail (cross (cross r v) r) (vnorm (cross (cross r v) r)) =
      (Vec3.smul (1 / (vnorm (cross r v) * vnorm r)) (cross (cross r v) r), true) := by
    rw [unit_or_fail_pos _ _ htn, vnorm_t_eq]
  have e4 : cross (Vec3.smul (1 / vnorm r) r)
      (Vec3.smul (1 / (vnorm (cross r v) * vnorm r)) (cross (cross r v) r)) =
      Vec3.smul (1 / vnorm (cross r v)) (cross r v) := by
    rw [cross_smul_smul, triple_a_ba, dot_self_cross, sub_zero_smul, smul_smul_vec]
    congr 1
    rw [← sq_vnorm r]
    field_simp
    ring
  have e5 : vnorm (Vec3.smul (1 / vnorm (cross r v)) (cross r v)) = 1 := by
    rw [vnorm_smul_of_nonneg _ (by positivity)]
    field_simp
  have e6 : unit_or_fail (Vec3.smul (1 / vnorm (cross r v)) (cross r v)) 1 =
      (Vec3.smul (1 / vnorm (cross r v)) (cross r v), true) := by
    rw [unit_or_fail_pos _ _ one_pos]
    norm_num [smul_one_vec]
  have e7 : cross (Vec3.smul (1 / vnorm (cross r v)) (cross r v))
      (Vec3.smul (1 / vnorm r) r) =
      Vec3.smul (1 / (vnorm (cross r v) * vnorm r)) (cross (cross r v) r) := by
    rw [cross_smul_smul, div_mul_div_comm, one_mul]
  have e8 : vnorm (Vec3.smul (1 / (vnorm (cross r v) * vnorm r))
      (cross (cross r v) r)) = 1 := by
    rw [vnorm_smul_of_nonneg _ (by positivity), vnorm_t_eq]
    field_simp
  have e9 : unit_or_fail (Vec3.smul (1 / (vnorm (cross r v) * vnorm r))
      (cross (cross r v) r)) 1 =
      (Vec3.smul (1 / (vnorm (cross r v) * vnorm r)) (cross (cross r v) r), true) := by
    rw [unit_or_fail_pos _ _ one_pos]
    norm_num [smul_one_vec]
  have g3 : ¬(vnorm r < contracts.kRmin_m ∨ vnorm v < contracts.kVmin_mps) := by
    push_neg
    exact ⟨hr, hv⟩
  have g4 : ¬(vnorm (cross r v) / (vnorm r * vnorm v) < contracts.kHhatMin) := not_lt.mpr hh
  simp only [construct_ric_from_chief, ← hrdef, ← hvdef, hok, hfr, hfv, not_true_eq_false,
    if_false, and_self, ge_iff_le, not_le, e1, e2, e3]
  rw [if_neg g3, if_neg g4]
  simp only [e1, e2, e3, e4, e5, e6, e7, e8, e9, Bool.and_self, Bool.and_true, Bool.true_and,
    not_true_eq_false, if_false, ricC, ricColumns]

theorem dot_a_cross_ba (a b : Vec3) : dot a (cross b a) = 0 := by
  simp only [dot, cross]; ring

/-- `‖h×r‖² = ‖h‖²·‖r‖²` at `h = r×v` (h ⊥ r). -/
theorem dot_t_t (r v : Vec3) :
    dot (cross (cross r v) r) (cross (cross r v) r) =
      dot (cross r v) (cross r v) * dot r r := by
  rw [lagrange_cross, dot_cross_left]; ring

/-- The degeneracy gates give strictly positive `‖r‖`, `‖v‖`, `‖r×v‖`. -/
theorem gates_pos (r v : Vec3) (hr : vnorm r ≥ contracts.kRmin_m)
    (hv : vnorm v ≥ contracts.kVmin_mps)
    (hh : vnorm (cross r v) / (vnorm r * vnorm v) ≥ contracts.kHhatMin) :
    0 < vnorm r ∧ 0 < vnorm v ∧ 0 < vnorm (cross r v) := by
  have hrn : 0 < vnorm r := by
    have h := hr
    norm_num [contracts.kRmin_m, ge_iff_le] at h
    linarith
  have hvn : 0 < vnorm v := by
    have h := hv
    norm_num [contracts.kVmin_mps, ge_iff_le] at h
    linarith
  refine ⟨hrn, hvn, ?_⟩
  have h1 := hh
  norm_num [contracts.kHhatMin, ge_iff_le] at h1
  have h2 := (le_div_iff₀ (mul_pos hrn hvn)).mp h1
  nlinarith

/-- The constructed triad is orthonormal: `Cᵗ·C = I` exactly (real
arithmetic). -/
theorem ricC_transpose_mul (r v : Vec3) (hrn : 0 < vnorm r)
    (hhn : 0 < vnorm (cross r v)) :
    mulm (transpose (ricC r v)) (ricC r v) = Mat3.id3 := by
  have hrne : vnorm r ≠ 0 := ne_of_gt hrn
  have hhne : vnorm (cross r v) ≠ 0 := ne_of_gt hhn
  rw [ricC, transpose_mul_ricColumns]
  have haa : dot (Vec3.smul (1 / vnorm r) r) (Vec3.smul (1 / vnorm r) r) = 1 := by
    rw [dot_smul_smul, ← sq_vnorm]
    field_simp
  have hab : dot (Vec3.smul (1 / vnorm r) r)
      (Vec3.smul (1 / (vnorm (cross r v) * vnorm r)) (cross (cross r v) r)) = 0 := by
    rw [dot_smul_smul, dot_a_cross_ba, mul_zero]
  have hac : dot (Vec3.smul (1 / vnorm r) r)
      (Vec3.smul (1 / vnorm (cross r v)) (cross r v)) = 0 := by
    rw [dot_smul_smul, dot_self_cross, mul_zero]
  have hba : dot (Vec3.smul (1 / (vnorm (cross r v) * vnorm r)) (cross (cross r v) r))
      (Vec3.smul (1 / vnorm r) r) = 0 := by
    rw [dot_smul_smul, dot_cross_right, mul_zero]
  have hbb : dot (Vec3.smul (1 / (vnorm (cross r v) * vnorm r)) (cross (cross r v) r))
      (Vec3.smul (1 / (vnorm (cross r v) * vnorm r)) (cross (cross r v) r)) = 1 := by
    rw [dot_smul_smul, dot_t_t, ← sq_vnorm, ← sq_vnorm]
    field_simp
    ring
  have hbc : dot (Vec3.smul (1 / (vnorm (cross r v) * vnorm r)) (cross (cross r v) r))
      (Vec3.smul (1 / vnorm (cross r v)) (cross r v)) = 0 := by
    rw [dot_smul_smul, dot_cross_left, mul_zero]
  have hca : dot (Vec3.smul (1 / vnorm (cross r v)) (cross r v))
      (Vec3.smul (1 / vnorm r) r) = 0 := by
    rw [dot_smul_smul, dot_cross_left, mul_zero]
  have hcb : dot (Vec3.smul (1 / vnorm (cross r v)) (cross r v))
      (Vec3.smul (1 / (vnorm (cross r v) * vnorm r)) (cross (cross r v) r)) = 0 := by
    rw [dot_smul_smul, dot_self_cross, mul_zero]
  have hcc : dot (Vec3.smul (1 / vnorm (cross r v)) (cross r v))
      (Vec3.smul (1 / vnorm (cross r v)) (cross r v)) = 1 := by
    rw [dot_smul_smul, ← sq_vnorm]
    field_simp
  rw [haa, hab, hac, hba, hbb, hbc, hca, hcb, hcc]
  rfl

/-- The constructed triad is right-handed: `det C = +1` exactly. -/
theorem ricC_det_one (r v : Vec3) (hrn : 0 < vnorm r)
    (hhn : 0 < vnorm (cross r v)) :
    det (ricC r v) = 1 := by
  have hrne : vnorm r ≠ 0 := ne_of_gt hrn
  have hhne : vnorm (cross r v) ≠ 0 := ne_of_gt hhn
  rw [ricC, det_ricColumns, cross_smul_smul, triple_ba_b,
    show dot r (cross r v) = 0 from dot_self_cross r v, sub_zero_smul,
    smul_smul_vec, dot_smul_smul, ← sq_vnorm, ← sq_vnorm]
  field_simp
  ring

/-- **C9.** For every chief state passing the degeneracy gates (ok status,
finite r and v, `‖r‖ ≥ Rmin`, `‖v‖ ≥ Vmin`, `‖r×v‖/(‖r‖‖v‖) ≥ Hhat_min`),
`construct_ric_from_chief` succeeds, the constructed DCM satisfies
`max|C·Cᵗ − I| < 1e-12` (in fact it is exactly orthonormal in real
arithmetic), its determinant is exactly `+1`, and the angular velocity is
`ω_ric = (0, 0, ‖r×v‖/‖r‖²)`. -/
theorem construct_ric_gates_give_orthonormal_frame (ch : ChiefState)
    (hok : ch.status.ok) (hfr : ch.r_i.finAll) (hfv : ch.v_i.finAll)
    (hr : vnorm ch.r_i.val ≥ contracts.kRmin_m)
    (hv : vnorm ch.v_i.val ≥ contracts.kVmin_mps)
    (hh : vnorm (cross ch.r_i.val ch.v_i.val) /
        (vnorm ch.r_i.val * vnorm ch.v_i.val) ≥ contracts.kHhatMin) :
    (construct_ric_from_chief ch).status = ProviderCode.kOk ∧
    max_abs_CCt_minus_I (construct_ric_from_chief ch).C_from_ric_to_inertial < 1e-12 ∧
    det (construct_ric_from_chief ch).C_from_ric_to_inertial = 1 ∧
    (construct_ric_from_chief ch).omega_ric =
      ⟨0, 0, vnorm (cross ch.r_i.val ch.v_i.val) /
        (vnorm ch.r_i.val * vnorm ch.r_i.val)⟩ := by
  obtain ⟨hrn, hvn, hhn⟩ := gates_pos ch.r_i.val ch.v_i.val hr hv hh
  rw [construct_ric_success ch hok hfr hfv hr hv hh]
  have hdet := ricC_det_one ch.r_i.val ch.v_i.val hrn hhn
  have hCCt := mul_transpose_of_transpose_mul _
    (ricC_transpose_mul ch.r_i.val ch.v_i.val hrn hhn) hdet
  refine ⟨rfl, ?_, hdet, rfl⟩
  rw [max_abs_of_identity _ hCCt]
  norm_num

/-- A concrete non-degenerate chief state: `r = (2,0,0) m`, `v = (0,2,0) m/s`. -/
def wChief : ChiefState :=
  ⟨fd 0, FVec3.ofVec ⟨2, 0, 0⟩, FVec3.ofVec ⟨0, 2, 0⟩, some 0, ProviderCode.kOk⟩

theorem wChief_r_norm : vnorm wChief.r_i.val = 2 := by
  have : dot wChief.r_i.val wChief.r_i.val = 4 := by
    norm_num [wChief, FVec3.ofVec, FVec3.val, fd, dot]
  rw [vnorm, this, show (4 : ℝ) = 2 ^ 2 by norm_num]
  exact Real.sqrt_sq (by norm_num)

theorem wChief_v_norm : vnorm wChief.v_i.val = 2 := by
  have : dot wChief.v_i.val wChief.v_i.val = 4 := by
    norm_num [wChief, FVec3.ofVec, FVec3.val, fd, dot]
  rw [vnorm, this, show (4 : ℝ) = 2 ^ 2 by norm_num]
  exact Real.sqrt_sq (by norm_num)

theorem wChief_h_norm : vnorm (cross wChief.r_i.val wChief.v_i.val) = 4 := by
  have : dot (cross wChief.r_i.val wChief.v_i.val)
      (cross wChief.r_i.val wChief.v_i.val) = 16 := by
    norm_num [wChief, FVec3.ofVec, FVec3.val, fd, dot, cross]
  rw [vnorm, this, show (16 : ℝ) = 4 ^ 2 by norm_num]
  exact Real.sqrt_sq (by norm_num)

/-- Witness for C9 at the concrete chief `wChief`: all gates hold there and
the conclusion follows by applying the theorem. -/
theorem construct_ric_gates_witness :
    wChief.status.ok ∧ wChief.r_i.finAll ∧ wChief.v_i.finAll ∧
    vnorm wChief.r_i.val ≥ contracts.kRmin_m ∧
    vnorm wChief.v_i.val ≥ contracts.kVmin_mps ∧
    vnorm (cross wChief.r_i.val wChief.v_i.val) /
      (vnorm wChief.r_i.val * vnorm wChief.v_i.val) ≥ contracts.kHhatMin ∧
    ((construct_ric_from_chief wChief).status = ProviderCode.kOk ∧
      max_abs_CCt_minus_I (construct_ric_from_chief wChief).C_from_ric_to_inertial < 1e-12 ∧
      det (construct_ric_from_chief wChief).C_from_ric_to_inertial = 1 ∧
      (construct_ric_from_chief wChief).omega_ric =
        ⟨0, 0, vnorm (cross wChief.r_i.val wChief.v_i.val) /
          (vnorm wChief.r_i.val * vnorm wChief.r_i.val)⟩) := by
  have h1 : wChief.status.ok := rfl
  have h2 : wChief.r_i.finAll := ⟨rfl, rfl, rfl⟩
  have h3 : wChief.v_i.finAll := ⟨rfl, rfl, rfl⟩
  have h4 : vnorm wChief.r_i.val ≥ contracts.kRmin_m := by
    rw [wChief_r_norm, contracts.kRmin_m]; norm_num
  have h5 : vnorm wChief.v_i.val ≥ contracts.kVmin_mps := by
    rw [wChief_v_norm, contracts.kVmin_mps]; norm_num
  have h6 : vnorm (cross wChief.r_i.val wChief.v_i.val) /
      (vnorm wChief.r_i.val * vnorm wChief.v_i.val) ≥ contracts.kHhatMin := by
    rw [wChief_h_norm, wChief_r_norm, wChief_v_norm, contracts.kHhatMin]; norm_num
  exact ⟨h1, h2, h3, h4, h5, h6,
    construct_ric_gates_give_orthonormal_frame wChief h1 h2 h3 h4 h5 h6⟩

/-! ## Bullseye frame policy orchestrator (src/core/bullseye_frame.cpp) -/

/-- `bullseye_pred::BullseyeFrameMode`. -/
inductive BullseyeFrameMode
  | kConstructedOnly
  | kAdoptedPrefer
deriving DecidableEq

/-- `bullseye_pred::BullseyeFrameSnapshot`. -/
structure BullseyeFrameSnapshot where
  time_tag : Fd
  origin_i : FVec3
  C_from_ric_to_inertial : Mat3
  has_omega : Bool
  omega_ric : FVec3
  omega_coords : OmegaCoords
  frame_kind : FrameKind
  axis_order : AxisOrder
  inertial_frame_id : Option ℕ
  adopted_frame_source_id : Option ℕ
  used_adopted : Bool
  degraded : ℕ
  status : ProviderCode

/-- The default-initialised `BullseyeFrameSnapshot` (in-class initialisers). -/
def snapshotDefault : BullseyeFrameSnapshot :=
  ⟨fd 0, FVec3.ofVec Vec3.zero, Mat3.id3, false, FVec3.ofVec Vec3.zero,
   OmegaCoords.kUnspecified, FrameKind.kBullseyeRIC, AxisOrder.kRIC,
   none, none, false, contracts.dgNone, ProviderCode.kOk⟩

/-- `from_constructed` from bullseye_frame.cpp. -/
def from_constructed (chief : ChiefState) (degraded : ℕ) : BullseyeFrameSnapshot :=
  let c := construct_ric_from_chief chief
  { snapshotDefault with
    time_tag := c.time_tag,
    origin_i := c.origin_i,
    C_from_ric_to_inertial := c.C_from_ric_to_inertial,
    has_omega := c.has_omega,
    omega_ric := FVec3.ofVec c.omega_ric,
    omega_coords := c.omega_coords,
    frame_kind := c.frame_kind,
    axis_order := c.axis_order,
    inertial_frame_id := chief.frame_id,
    used_adopted := false,
    degraded := degraded,
    status := c.status }

/-- `from_adopted` from bullseye_frame.cpp. -/
def from_adopted (chief : ChiefState) (f : AdoptedRicFrame) : BullseyeFrameSnapshot :=
  { snapshotDefault with
    time_tag := f.time_tag,
    origin_i := f.origin_i,
    C_from_ric_to_inertial := f.C_from_ric_to_inertial,
    has_omega := f.has_omega,
    omega_ric := f.omega_ric,
    omega_coords := f.omega_coords,
    frame_kind := f.frame_kind,
    axis_order := f.axis_order,
    inertial_frame_id := chief.frame_id,
    adopted_frame_source_id := f.frame_source_id,
    used_adopted := true,
    degraded := contracts.dgNone,
    status := ProviderCode.kOk }

/-- `BullseyeFrame::update(t0)` from bullseye_frame.cpp, with the chief and
adopted providers passed as functions (the class holds them as interface
references; `adoptedGet = none` is a null adopted provider). -/
def BullseyeFrame.update (chiefGet : Fd → ChiefState)
    (adoptedGet : Option (Fd → AdoptedRicFrame)) (mode : BullseyeFrameMode)
    (tol : FrameValidationTolerances) (t0 : Fd) : BullseyeFrameSnapshot :=
  let chief := chiefGet t0
  if ¬chief.status.ok ∨ chief.frame_id = none then
    { snapshotDefault with
      status := if chief.status.ok then ProviderCode.kInvalidInput else chief.status }
  else
    match mode, adoptedGet with
    | BullseyeFrameMode.kAdoptedPrefer, some aget =>
      let frame := aget t0
      let v := validate_adopted_bullseye_ric_frame t0 chief frame tol
      if v.status.ok then
        from_adopted chief frame
      else if contracts.kOnAdoptedInvalid = contracts.OnAdoptedInvalid.kAbortTick then
        { snapshotDefault with status := v.status }
      else
        let constructed := from_constructed chief contracts.dgAdoptedInvalid
        if ¬constructed.status.ok then
          { constructed with
            degraded := Nat.lor constructed.degraded contracts.dgDegenerateChief }
        else
          constructed
    | _, _ =>
      let constructed := from_constructed chief contracts.dgNone
      if ¬constructed.status.ok then
        { constructed with
          degraded := Nat.lor constructed.degraded contracts.dgDegenerateChief }
      else
        constructed

/-- **C5.** In adopted-preferred mode with the fallback policy active
(`kOnAdoptedInvalid = kFallbackConstructedDegraded`), whenever the chief state
is ok with a frame-id but the adopted candidate fails validation, `update`
returns the constructed frame with `used_adopted = false` and a degraded
bitmask containing `AdoptedInvalid` (bit 0); if the constructed fallback is
itself degenerate, the bitmask is the OR-accumulation of `AdoptedInvalid` and
`DegenerateChief` (both bits set, neither replacing the other). -/
theorem bullseye_update_adopted_invalid_fallback (chiefGet : Fd → ChiefState)
    (aget : Fd → AdoptedRicFrame) (tol : FrameValidationTolerances) (t0 : Fd)
    (hok : (chiefGet t0).status.ok) (hid : (chiefGet t0).frame_id ≠ none)
    (hbad : ¬(validate_adopted_bullseye_ric_frame t0 (chiefGet t0) (aget t0) tol).status.ok) :
    (BullseyeFrame.update chiefGet (some aget) BullseyeFrameMode.kAdoptedPrefer tol t0).used_adopted
        = false ∧
    ((BullseyeFrame.update chiefGet (some aget) BullseyeFrameMode.kAdoptedPrefer tol
        t0).degraded).testBit 0 = true ∧
    (BullseyeFrame.update chiefGet (some aget) BullseyeFrameMode.kAdoptedPrefer tol
        t0).C_from_ric_to_inertial =
      (construct_ric_from_chief (chiefGet t0)).C_from_ric_to_inertial ∧
    (BullseyeFrame.update chiefGet (some aget) BullseyeFrameMode.kAdoptedPrefer tol
        t0).status = (construct_ric_from_chief (chiefGet t0)).status ∧
    ((construct_ric_from_chief (chiefGet t0)).status.ok →
      (BullseyeFrame.update chiefGet (some aget) BullseyeFrameMode.kAdoptedPrefer tol
        t0).degraded = contracts.dgAdoptedInvalid) ∧
    (¬(construct_ric_from_chief (chiefGet t0)).status.ok →
      (BullseyeFrame.update chiefGet (some aget) BullseyeFrameMode.kAdoptedPrefer tol
          t0).degraded =
        Nat.lor contracts.dgAdoptedInvalid contracts.dgDegenerateChief ∧
      ((BullseyeFrame.update chiefGet (some aget) BullseyeFrameMode.kAdoptedPrefer tol
          t0).degraded).testBit 1 = true) := by
  have hpol : ¬(contracts.kOnAdoptedInvalid = contracts.OnAdoptedInvalid.kAbortTick) := by
    simp [contracts.kOnAdoptedInvalid]
  have hgate : ¬(¬(chiefGet t0).status.ok ∨ (chiefGet t0).frame_id = none) := by
    push_neg
    exact ⟨hok, hid⟩
  by_cases hc : (construct_ric_from_chief (chiefGet t0)).status.ok
  · have hres : BullseyeFrame.update chiefGet (some aget) BullseyeFrameMode.kAdoptedPrefer tol t0
        = from_constructed (chiefGet t0) contracts.dgAdoptedInvalid := by
      simp only [BullseyeFrame.update, if_neg hgate, if_neg hbad, if_neg hpol]
      rw [if_neg (not_not_intro (by simpa [from_constructed] using hc))]
    rw [hres]
    have hdeg : (from_constructed (chiefGet t0) contracts.dgAdoptedInvalid).degraded = 1 := rfl
    refine ⟨rfl, ?_, rfl, rfl, fun _ => rfl, fun h => absurd hc h⟩
    rw [hdeg]
    decide
  · have hres : BullseyeFrame.update chiefGet (some aget) BullseyeFrameMode.kAdoptedPrefer tol t0
        = { from_constructed (chiefGet t0) contracts.dgAdoptedInvalid with
            degraded := Nat.lor contracts.dgAdoptedInvalid contracts.dgDegenerateChief } := by
      simp only [BullseyeFrame.update, if_neg hgate, if_neg hbad, if_neg hpol]
      rw [if_pos (by simpa [from_constructed] using hc)]
      rfl
    rw [hres]
    have hdeg : ({ from_constructed (chiefGet t0) contracts.dgAdoptedInvalid with
        degraded := Nat.lor contracts.dgAdoptedInvalid contracts.dgDegenerateChief} :
          BullseyeFrameSnapshot).degraded = 3 := rfl
    refine ⟨rfl, ?_, rfl, rfl, fun h => absurd h hc, fun _ => ⟨?_, ?_⟩⟩
    · rw [hdeg]
      decide
    · rw [hdeg]
      decide
    · rw [hdeg]
      decide

/-- A concrete adopted candidate that fails validation (non-ok status). -/
def wBadAdopted : AdoptedRicFrame :=
  ⟨fd 0, FVec3.ofVec Vec3.zero, Mat3.id3, true, false, FVec3.ofVec Vec3.zero,
   OmegaCoords.kUnspecified, FrameKind.kUnspecified, AxisOrder.kUnspecified,
   none, ProviderCode.kNotAvailable⟩

theorem wBadAdopted_fails :
    ¬(validate_adopted_bullseye_ric_frame (fd 0) wChief wBadAdopted
        defaultTol).status.ok := by
  have h : validate_adopted_bullseye_ric_frame (fd 0) wChief wBadAdopted defaultTol
      = ⟨ProviderCode.kInvalidInput, FrameValidationReason.kFrameNotOk⟩ := by
    rw [validate_adopted_bullseye_ric_frame,
      if_neg (not_not_intro (show wChief.status.ok from rfl)),
      if_pos (by simp [wBadAdopted, ProviderCode.ok] : ¬wBadAdopted.status.ok)]
  rw [h]
  simp [ProviderCode.ok]

/-- Witness for C5 at a concrete input: chief ok with frame-id, adopted
candidate invalid, fallback constructed and degraded with `AdoptedInvalid`. -/
theorem bullseye_update_adopted_invalid_witness :
    ((fun _ : Fd => wChief) (fd 0)).status.ok ∧
    ((fun _ : Fd => wChief) (fd 0)).frame_id ≠ none ∧
    ¬(validate_adopted_bullseye_ric_frame (fd 0) ((fun _ : Fd => wChief) (fd 0))
        ((fun _ : Fd => wBadAdopted) (fd 0)) defaultTol).status.ok ∧
    ((BullseyeFrame.update (fun _ => wChief) (some (fun _ => wBadAdopted))
        BullseyeFrameMode.kAdoptedPrefer defaultTol (fd 0)).used_adopted = false ∧
      ((BullseyeFrame.update (fun _ => wChief) (some (fun _ => wBadAdopted))
        BullseyeFrameMode.kAdoptedPrefer defaultTol (fd 0)).degraded).testBit 0 = true) := by
  have h1 : ((fun _ : Fd => wChief) (fd 0)).status.ok := rfl
  have h2 : ((fun _ : Fd => wChief) (fd 0)).frame_id ≠ none := by simp [wChief]
  have h3 : ¬(validate_adopted_bullseye_ric_frame (fd 0) ((fun _ : Fd => wChief) (fd 0))
      ((fun _ : Fd => wBadAdopted) (fd 0)) defaultTol).status.ok := wBadAdopted_fails
  have h := bullseye_update_adopted_invalid_fallback (fun _ => wChief)
    (fun _ => wBadAdopted) defaultTol (fd 0) h1 h2 h3
  exact ⟨h1, h2, h3, h.1, h.2.1⟩

/-! ## Stumpff functions (src/core/math/stumpff.hpp; the identical static
copies in src/core/provider_twobody.cpp). -/

/-- `stumpff_C(z)` with the small-|z| series branch (threshold 1e-8). -/
def stumpff_C (z : ℝ) : ℝ :=
  if |z| < 1e-8 then 0.5 - z / 24 + z ^ 2 / 720 - z ^ 2 * z / 40320
  else if z > 0 then (1 - Real.cos (Real.sqrt z)) / z
  else (1 - Real.cosh (Real.sqrt (-z))) / z

/-- `stumpff_S(z)` with the small-|z| series branch (threshold 1e-8). -/
def stumpff_S (z : ℝ) : ℝ :=
  if |z| < 1e-8 then 1 / 6 - z / 120 + z ^ 2 / 5040 - z ^ 2 * z / 362880
  else if z > 0 then
    (Real.sqrt z - Real.sin (Real.sqrt z)) / (Real.sqrt z * Real.sqrt z * Real.sqrt z)
  else
    (Real.sinh (Real.sqrt (-z)) - Real.sqrt (-z)) /
      (Real.sqrt (-z) * Real.sqrt (-z) * Real.sqrt (-z))

/-! ## Universal-variable two-body propagation core

The Newton loop body, the deterministic seed and the final (f, g) assembly are
textually identical in `TwoBodyChiefProvider::get` (provider_twobody.cpp) and
`propagate_two_body_universal` (model_ya_stm.cpp); the two call sites differ
only in the fixed iteration count (12 vs 8) and in how failures are reported.
They are embedded once here, parameterised by the iteration count. -/

/-- One fixed-count Newton iteration on Kepler's universal equation
(the loop body shared by both sources).  The `isfinite` halves of the
singular-derivative guard are identically true in real arithmetic. -/
def uvNewtonStep (rv oma r0n sqrt_mu dt alpha : ℝ) (x : ℝ) : ℝ :=
  let x2 := x * x
  let z := alpha * x2
  let C := stumpff_C z
  let S := stumpff_S z
  let x3 := x2 * x
  let F := rv * x2 * C + oma * x3 * S + r0n * x - sqrt_mu * dt
  let dF := rv * x * (1 - z * S) + oma * x2 * C + r0n
  if ¬(dF ≠ 0) then x else x - F / dF

/-- The result of the shared two-body universal-variable pipeline. -/
structure UvOut where
  r : Vec3
  v : Vec3
  rn : ℝ

/-- The universal-variable (f, g) propagation pipeline shared by
provider_twobody.cpp and model_ya_stm.cpp, parameterised by the fixed Newton
iteration count.  `v` is only meaningful when `rn > 0` (both call sites fail
before using it otherwise). -/
def uvCompute (iters : ℕ) (r0 v0 : Vec3) (mu dt : ℝ) : UvOut :=
  let r0n := vnorm r0
  let sqrt_mu := Real.sqrt mu
  let v0n2 := dot v0 v0
  let alpha := 2 / r0n - v0n2 / mu
  let rv := dot r0 v0 / sqrt_mu
  let oma := 1 - alpha * r0n
  let x0 := if |alpha| > 1e-8 then sqrt_mu * |alpha| * dt else sqrt_mu * dt / r0n
  let x := (uvNewtonStep rv oma r0n sqrt_mu dt alpha)^[iters] x0
  let x2 := x * x
  let z := alpha * x2
  let C := stumpff_C z
  let S := stumpff_S z
  let f := 1 - x2 / r0n * C
  let g := dt - x2 * x / sqrt_mu * S
  let r := (Vec3.smul f r0).add (Vec3.smul g v0)
  let rn := vnorm r
  let fdot := sqrt_mu / (r0n * rn) * (z * S - 1) * x
  let gdot := 1 - x2 / rn * C
  let v := (Vec3.smul fdot r0).add (Vec3.smul gdot v0)
  ⟨r, v, rn⟩

/-! ## TwoBodyChiefProvider (src/core/provider_twobody.cpp) -/

/-- The provider's construction-time configuration. -/
structure TwoBodyConfig where
  frameId : Option ℕ
  mu : Fd
  tEpoch : Fd
  r0 : FVec3
  v0 : FVec3

/-- The all-zero finite vector payload of an early-returned `ChiefState`. -/
def zeroFV : FVec3 := FVec3.ofVec Vec3.zero

/-- `TwoBodyChiefProvider::get(t0)`: staged validation, fixed 12-iteration
Newton solve (`kKeplerIters = 12`), (f, g) assembly and output sanity. -/
def TwoBodyChiefProvider.get (cfg : TwoBodyConfig) (t0 : Fd) : ChiefState :=
  if cfg.frameId = none then
    ⟨fd 0, zeroFV, zeroFV, cfg.frameId, ProviderCode.kInvalidInput⟩
  else if ¬(cfg.mu.fin = true ∧ cfg.mu.val > 0) then
    ⟨fd 0, zeroFV, zeroFV, cfg.frameId, ProviderCode.kInvalidInput⟩
  else if ¬(t0.fin = true ∧ cfg.tEpoch.fin = true ∧ cfg.r0.finAll ∧ cfg.v0.finAll) then
    ⟨fd 0, zeroFV, zeroFV, cfg.frameId, ProviderCode.kInvalidInput⟩
  else if ¬(vnorm cfg.r0.val > 0) then
    ⟨fd 0, zeroFV, zeroFV, cfg.frameId, ProviderCode.kInvalidInput⟩
  else
    let out := uvCompute 12 cfg.r0.val cfg.v0.val cfg.mu.val (t0.val - cfg.tEpoch.val)
    if out.rn > 0 then
      ⟨t0, FVec3.ofVec out.r, FVec3.ofVec out.v, cfg.frameId, ProviderCode.kOk⟩
    else
      ⟨fd 0, zeroFV, zeroFV, cfg.frameId, ProviderCode.kInternalError⟩

/-- The provider's configuration validation, as in the code's staged checks. -/
def twoBodyValidConfig (cfg : TwoBodyConfig) (t0 : Fd) : Prop :=
  cfg.frameId ≠ none ∧ (cfg.mu.fin = true ∧ cfg.mu.val > 0) ∧
  t0.fin = true ∧ cfg.tEpoch.fin = true ∧ cfg.r0.finAll ∧ cfg.v0.finAll ∧
  vnorm cfg.r0.val > 0

/-- **C3.** `TwoBodyChiefProvider::get` never reports `TimeMissing` (its
status is always `Ok`, `InvalidInput` or `InternalError`); it returns `Ok`
exactly when the configuration is valid (non-null frame id, finite μ > 0,
finite epoch state with `‖r₀‖ > 0`, finite t0) and the output sanity check
(`‖r‖ > 0`; finiteness is automatic in real arithmetic) passes; and every ok
state carries `time_tag == t0` exactly. -/
theorem twobody_get_status_and_exact_time (cfg : TwoBodyConfig) (t0 : Fd) :
    ((TwoBodyChiefProvider.get cfg t0).status = ProviderCode.kOk ∨
     (TwoBodyChiefProvider.get cfg t0).status = ProviderCode.kInvalidInput ∨
     (TwoBodyChiefProvider.get cfg t0).status = ProviderCode.kInternalError) ∧
    ((TwoBodyChiefProvider.get cfg t0).status = ProviderCode.kOk ↔
      (twoBodyValidConfig cfg t0 ∧
        (uvCompute 12 cfg.r0.val cfg.v0.val cfg.mu.val
          (t0.val - cfg.tEpoch.val)).rn > 0)) ∧
    ((TwoBodyChiefProvider.get cfg t0).status = ProviderCode.kOk →
      (TwoBodyChiefProvider.get cfg t0).time_tag = t0) := by
  simp only [TwoBodyChiefProvider.get]
  by_cases h1 : cfg.frameId = none
  · rw [if_pos h1]
    refine ⟨Or.inr (Or.inl rfl), ?_, ?_⟩
    · constructor
      · intro h
        exact nomatch h
      · rintro ⟨hv, -⟩
        exact absurd h1 hv.1
    · intro h
      exact nomatch h
  · rw [if_neg h1]
    by_cases h2 : cfg.mu.fin = true ∧ cfg.mu.val > 0
    · rw [if_neg (not_not_intro h2)]
      by_cases h3 : t0.fin = true ∧ cfg.tEpoch.fin = true ∧ cfg.r0.finAll ∧ cfg.v0.finAll
      · rw [if_neg (not_not_intro h3)]
        by_cases h4 : vnorm cfg.r0.val > 0
        · rw [if_neg (not_not_intro h4)]
          by_cases h5 : (uvCompute 12 cfg.r0.val cfg.v0.val cfg.mu.val
              (t0.val - cfg.tEpoch.val)).rn > 0
          · rw [if_pos h5]
            exact ⟨Or.inl rfl,
              ⟨fun _ => ⟨⟨h1, h2, h3.1, h3.2.1, h3.2.2.1, h3.2.2.2, h4⟩, h5⟩, fun _ => rfl⟩,
              fun _ => rfl⟩
          · rw [if_neg h5]
            refine ⟨Or.inr (Or.inr rfl), ?_, ?_⟩
            · constructor
              · intro h
                exact nomatch h
              · rintro ⟨-, hrn⟩
                exact absurd hrn h5
            · intro h
              exact nomatch h
        · rw [if_pos h4]
          refine ⟨Or.inr (Or.inl rfl), ?_, ?_⟩
          · constructor
            · intro h
              exact nomatch h
            · rintro ⟨hv, -⟩
              exact absurd hv.2.2.2.2.2.2 h4
          · intro h
            exact nomatch h
      · rw [if_pos h3]
        refine ⟨Or.inr (Or.inl rfl), ?_, ?_⟩
        · constructor
          · intro h
            exact nomatch h
          · rintro ⟨hv, -⟩
            exact absurd ⟨hv.2.2.1, hv.2.2.2.1, hv.2.2.2.2.1, hv.2.2.2.2.2.1⟩ h3
        · intro h
          exact nomatch h
    · rw [if_pos h2]
      refine ⟨Or.inr (Or.inl rfl), ?_, ?_⟩
      · constructor
        · intro h
          exact nomatch h
        · rintro ⟨hv, -⟩
          exact absurd hv.2.1 h2
      · intro h
        exact nomatch h

/-! ## Relative dynamics models (src/models) -/

/-- `bullseye_pred::ModelCode` (models/relative_model.hpp). -/
inductive ModelCode
  | kOk
  | kInvalidInput
  | kInsufficientOutputCapacity
deriving DecidableEq

/-- `IRelativeModel::Result`. -/
structure ModelResult where
  code : ModelCode
  steps_written : ℕ
deriving DecidableEq

/-- `bullseye_pred::RelStateRic` (finiteness-flagged at the model boundary:
both models test `finite3` on the initial state). -/
structure RelStateRic where
  r_ric : FVec3
  v_ric : FVec3

/-- HCW closed-form position at offset `t` (the loop body of
`ModelHCW::predict_hcw`, models/model_hcw.cpp). -/
def hcwPos (n : ℝ) (x0 : RelStateRic) (t : ℝ) : Vec3 :=
  let x0r := x0.r_ric.val
  let x0v := x0.v_ric.val
  let inv_n := 1 / n
  let nt := n * t
  let s := Real.sin nt
  let c := Real.cos nt
  ⟨(4 - 3 * c) * x0r.x + inv_n * s * x0v.x + 2 * inv_n * (1 - c) * x0v.y,
   6 * (s - nt) * x0r.x + x0r.y - 2 * inv_n * (1 - c) * x0v.x +
     inv_n * (4 * s - 3 * nt) * x0v.y,
   c * x0r.z + inv_n * s * x0v.z⟩

/-- HCW closed-form velocity at offset `t`. -/
def hcwVel (n : ℝ) (x0 : RelStateRic) (t : ℝ) : Vec3 :=
  let x0r := x0.r_ric.val
  let x0v := x0.v_ric.val
  let nt := n * t
  let s := Real.sin nt
  let c := Real.cos nt
  ⟨3 * n * s * x0r.x + c * x0v.x + 2 * s * x0v.y,
   6 * n * (c - 1) * x0r.x - 2 * s * x0v.x + (4 * c - 3) * x0v.y,
   -n * s * x0r.z + c * x0v.z⟩

/-- The `for (k …)` loop of `ModelHCW::predict_hcw`: validate each offset,
write position (and velocity when enabled) at index `k`. -/
def hcwLoop (n : ℝ) (x0 : RelStateRic) (want_vel : Bool) :
    List Fd → ℕ → List Vec3 → List Vec3 → ModelCode × List Vec3 × List Vec3
  | [], _, rb, vb => (ModelCode.kOk, rb, vb)
  | t :: rest, k, rb, vb =>
    if ¬(t.fin = true ∧ t.val ≥ 0) then (ModelCode.kInvalidInput, rb, vb)
    else
      hcwLoop n x0 want_vel rest (k + 1) (rb.set k (hcwPos n x0 t.val))
        (if want_vel then vb.set k (hcwVel n x0 t.val) else vb)

/-- `ModelHCW::predict_hcw` (models/model_hcw.cpp).  Output spans are
`Option (List Vec3)` (null data = `none`; capacity = list length); the
returned pair carries the final contents of both spans. -/
def ModelHCW.predict_hcw (x0 : RelStateRic) (n : Fd) (grid : List Fd)
    (out_r out_v : Option (List Vec3)) :
    ModelResult × Option (List Vec3) × Option (List Vec3) :=
  if ¬(n.fin = true ∧ n.val > 0) then (⟨ModelCode.kInvalidInput, 0⟩, out_r, out_v)
  else if ¬(x0.r_ric.finAll ∧ x0.v_ric.finAll) then
    (⟨ModelCode.kInvalidInput, 0⟩, out_r, out_v)
  else if grid.length = 0 then (⟨ModelCode.kOk, 0⟩, out_r, out_v)
  else
    match out_r with
    | none => (⟨ModelCode.kInsufficientOutputCapacity, 0⟩, out_r, out_v)
    | some rb =>
      if rb.length < grid.length then
        (⟨ModelCode.kInsufficientOutputCapacity, 0⟩, some rb, out_v)
      else
        let want_vel : Bool :=
          out_v.isSome && decide (grid.length ≤ (out_v.getD []).length)
        match hcwLoop n.val x0 want_vel grid 0 rb (out_v.getD []) with
        | (c, rb', vb') =>
          (⟨c, if c = ModelCode.kOk then grid.length else 0⟩, some rb',
            if want_vel then some vb' else out_v)

/-- `propagate_two_body_universal` from models/model_ya_stm.cpp: the same
universal-variable pipeline as the provider, with `kKeplerIters = 8`. -/
def propagate_two_body_universal (r0_i v0_i : Vec3) (mu dt : ℝ) :
    Option (Vec3 × Vec3) :=
  if ¬(mu > 0) then none
  else if ¬(vnorm r0_i > 0) then none
  else
    let out := uvCompute 8 r0_i v0_i mu dt
    if ¬(out.rn > 0) then none
    else some (out.r, out.v)

/-- `bullseye_pred::YaStmParams` (models/model_ya_stm.hpp). -/
structure YaStmParams where
  mu : Fd
  chief_r0_i : FVec3
  chief_v0_i : FVec3
  max_dt_sec : Fd

/-- `State6` from model_ya_stm.cpp. -/
structure State6 where
  x : ℝ
  y : ℝ
  z : ℝ
  xd : ℝ
  yd : ℝ
  zd : ℝ

/-- `add` from model_ya_stm.cpp: `a + scale_b * b` componentwise. -/
def add6 (a b : State6) (scale_b : ℝ) : State6 :=
  ⟨a.x + scale_b * b.x, a.y + scale_b * b.y, a.z + scale_b * b.z,
   a.xd + scale_b * b.xd, a.yd + scale_b * b.yd, a.zd + scale_b * b.zd⟩

/-- `deriv_th_ltv` from model_ya_stm.cpp: the TH linear time-varying dynamics
about the re-propagated chief; `none` embeds the `return false` paths. -/
def deriv_th_ltv (mu : ℝ) (chief_r0 chief_v0 : Vec3) (t : ℝ) (s : State6) :
    Option State6 :=
  match propagate_two_body_universal chief_r0 chief_v0 mu t with
  | none => none
  | some (cr, cv) =>
    let r := vnorm cr
    if ¬(r > 0) then none
    else
      let h := cross cr cv
      let hmag := vnorm h
      if ¬(hmag > 0) then none
      else
        let rdot := dot cr cv / r
        let omega := hmag / (r * r)
        let omegadot := -2 * omega * rdot / r
        let inv_r3 := 1 / (r * r * r)
        let mu_over_r3 := mu * inv_r3
        let omega2 := omega * omega
        some ⟨s.xd, s.yd, s.zd,
          (2 * mu_over_r3 + omega2) * s.x + 2 * omega * s.yd + omegadot * s.y,
          (omega2 - mu_over_r3) * s.y - 2 * omega * s.xd - omegadot * s.x,
          (-mu_over_r3) * s.z⟩

/-- `rk4_step` from model_ya_stm.cpp (the trailing finiteness check is
identically true in real arithmetic). -/
def rk4_step (mu : ℝ) (chief_r0 chief_v0 : Vec3) (t h : ℝ) (s : State6) :
    Option State6 :=
  match deriv_th_ltv mu chief_r0 chief_v0 t s with
  | none => none
  | some k1 =>
    match deriv_th_ltv mu chief_r0 chief_v0 (t + 0.5 * h) (add6 s k1 (0.5 * h)) with
    | none => none
    | some k2 =>
      match deriv_th_ltv mu chief_r0 chief_v0 (t + 0.5 * h) (add6 s k2 (0.5 * h)) with
      | none => none
      | some k3 =>
        match deriv_th_ltv mu chief_r0 chief_v0 (t + h) (add6 s k3 h) with
        | none => none
        | some k4 =>
          some ⟨s.x + h / 6 * (k1.x + 2 * k2.x + 2 * k3.x + k4.x),
                s.y + h / 6 * (k1.y + 2 * k2.y + 2 * k3.y + k4.y),
                s.z + h / 6 * (k1.z + 2 * k2.z + 2 * k3.z + k4.z),
                s.xd + h / 6 * (k1.xd + 2 * k2.xd + 2 * k3.xd + k4.xd),
                s.yd + h / 6 * (k1.yd + 2 * k2.yd + 2 * k3.yd + k4.yd),
                s.zd + h / 6 * (k1.zd + 2 * k2.zd + 2 * k3.zd + k4.zd)⟩

/-- The inner fixed-count substep loop of `predict_ya_stm`. -/
def rk4Iter (mu : ℝ) (chief_r0 chief_v0 : Vec3) (h : ℝ) :
    ℕ → ℝ → State6 → Option State6
  | 0, _, s => some s
  | m + 1, t, s =>
    match rk4_step mu chief_r0 chief_v0 t h s with
    | none => none
    | some s' => rk4Iter mu chief_r0 chief_v0 h m (t + h) s'

/-- The per-grid-point loop of `predict_ya_stm`: validate the offset, require
a non-decreasing grid, integrate across the interval with
`N = ceil(dt / max_dt)` substeps, then write the sample at index `k`.
Returns (code, steps written so far, both buffers). -/
def yaLoop (mu : ℝ) (chief_r0 chief_v0 : Vec3) (max_h : ℝ) (want_vel : Bool) :
    List Fd → ℝ → State6 → ℕ → List Vec3 → List Vec3 →
      ModelCode × ℕ × List Vec3 × List Vec3
  | [], _, _, k, rb, vb => (ModelCode.kOk, k, rb, vb)
  | t :: rest, t_prev, s, k, rb, vb =>
    if ¬(t.fin = true ∧ t.val ≥ 0) then (ModelCode.kInvalidInput, k, rb, vb)
    else if t.val < t_prev then (ModelCode.kInvalidInput, k, rb, vb)
    else
      match (if t.val - t_prev > 0 then
          rk4Iter mu chief_r0 chief_v0
            ((t.val - t_prev) / ((⌈(t.val - t_prev) / max_h⌉₊ : ℕ) : ℝ))
            ⌈(t.val - t_prev) / max_h⌉₊ t_prev s
        else some s) with
      | none => (ModelCode.kInvalidInput, k, rb, vb)
      | some s' =>
        yaLoop mu chief_r0 chief_v0 max_h want_vel rest t.val s' (k + 1)
          (rb.set k ⟨s'.x, s'.y, s'.z⟩)
          (if want_vel then vb.set k ⟨s'.xd, s'.yd, s'.zd⟩ else vb)

/-- `ModelYA_STM::predict_ya_stm` (models/model_ya_stm.cpp). -/
def ModelYA_STM.predict_ya_stm (x0 : RelStateRic) (p : YaStmParams)
    (grid : List Fd) (out_r out_v : Option (List Vec3)) :
    ModelResult × Option (List Vec3) × Option (List Vec3) :=
  if ¬(p.mu.fin = true ∧ p.mu.val > 0) then (⟨ModelCode.kInvalidInput, 0⟩, out_r, out_v)
  else if ¬(p.max_dt_sec.fin = true ∧ p.max_dt_sec.val > 0) then
    (⟨ModelCode.kInvalidInput, 0⟩, out_r, out_v)
  else if ¬(p.chief_r0_i.finAll ∧ p.chief_v0_i.finAll) then
    (⟨ModelCode.kInvalidInput, 0⟩, out_r, out_v)
  else if ¬(x0.r_ric.finAll ∧ x0.v_ric.finAll) then
    (⟨ModelCode.kInvalidInput, 0⟩, out_r, out_v)
  else if grid.length = 0 then (⟨ModelCode.kOk, 0⟩, out_r, out_v)
  else
    match out_r with
    | none => (⟨ModelCode.kInsufficientOutputCapacity, 0⟩, out_r, out_v)
    | some rb =>
      if rb.length < grid.length then
        (⟨ModelCode.kInsufficientOutputCapacity, 0⟩, some rb, out_v)
      else
        let want_vel : Bool :=
          out_v.isSome && decide (grid.length ≤ (out_v.getD []).length)
        let s0 : State6 := ⟨x0.r_ric.val.x, x0.r_ric.val.y, x0.r_ric.val.z,
          x0.v_ric.val.x, x0.v_ric.val.y, x0.v_ric.val.z⟩
        match yaLoop p.mu.val p.chief_r0_i.val p.chief_v0_i.val p.max_dt_sec.val
            want_vel grid 0 s0 0 rb (out_v.getD []) with
        | (c, k, rb', vb') =>
          (⟨c, k⟩, some rb', if want_vel then some vb' else out_v)

/-! ## Model contract lemmas (C8, C10) -/

/-- Parameter/state validity gate of `ModelHCW::predict_hcw`. -/
def hcwValidParams (x0 : RelStateRic) (n : Fd) : Prop :=
  (n.fin = true ∧ n.val > 0) ∧ x0.r_ric.finAll ∧ x0.v_ric.finAll

/-- Parameter/state validity gate of `ModelYA_STM::predict_ya_stm`. -/
def yaValidParams (x0 : RelStateRic) (p : YaStmParams) : Prop :=
  (p.mu.fin = true ∧ p.mu.val > 0) ∧ (p.max_dt_sec.fin = true ∧ p.max_dt_sec.val > 0) ∧
  p.chief_r0_i.finAll ∧ p.chief_v0_i.finAll ∧ x0.r_ric.finAll ∧ x0.v_ric.finAll

/-- A velocity span large enough for the grid. -/
def velCapacity (out_v : Option (List Vec3)) (steps : ℕ) : Prop :=
  ∃ l, out_v = some l ∧ steps ≤ l.length

theorem hcwLoop_ok_of_good (n : ℝ) (x0 : RelStateRic) (wv : Bool) :
    ∀ (g : List Fd) (k : ℕ) (rb vb : List Vec3),
      (∀ t ∈ g, t.fin = true ∧ t.val ≥ 0) →
      (hcwLoop n x0 wv g k rb vb).1 = ModelCode.kOk := by
  intro g
  induction g with
  | nil => intro k rb vb _; rfl
  | cons t rest ih =>
    intro k rb vb hgood
    rw [hcwLoop, if_neg (not_not_intro (hgood t (List.mem_cons_self t rest)))]
    exact ih _ _ _ fun u hu => hgood u (List.mem_cons_of_mem t hu)

theorem hcwLoop_invalid_of_bad (n : ℝ) (x0 : RelStateRic) (wv : Bool) :
    ∀ (g : List Fd) (k : ℕ) (rb vb : List Vec3),
      (∃ t ∈ g, ¬(t.fin = true ∧ t.val ≥ 0)) →
      (hcwLoop n x0 wv g k rb vb).1 = ModelCode.kInvalidInput := by
  intro g
  induction g with
  | nil => rintro k rb vb ⟨t, ht, -⟩; exact absurd ht (List.not_mem_nil t)
  | cons t rest ih =>
    rintro k rb vb ⟨u, hu, hbad⟩
    by_cases hhead : t.fin = true ∧ t.val ≥ 0
    · rw [hcwLoop, if_neg (not_not_intro hhead)]
      rcases List.mem_cons.mp hu with heq | htl
      · exact absurd hhead (heq ▸ hbad)
      · exact ih _ _ _ ⟨u, htl, hbad⟩
    · rw [hcwLoop, if_pos hhead]

theorem hcwLoop_vb_unchanged (n : ℝ) (x0 : RelStateRic) :
    ∀ (g : List Fd) (k : ℕ) (rb vb : List Vec3),
      (hcwLoop n x0 false g k rb vb).2.2 = vb := by
  intro g
  induction g with
  | nil => intro k rb vb; rfl
  | cons t rest ih =>
    intro k rb vb
    rw [hcwLoop]
    by_cases hhead : ¬(t.fin = true ∧ t.val ≥ 0)
    · rw [if_pos hhead]
    · rw [if_neg hhead]
      exact ih _ _ _

theorem yaLoop_code_cases (mu : ℝ) (cr cv : Vec3) (mh : ℝ) (wv : Bool) :
    ∀ (g : List Fd) (tp : ℝ) (s : State6) (k : ℕ) (rb vb : List Vec3),
      (yaLoop mu cr cv mh wv g tp s k rb vb).1 = ModelCode.kOk ∨
      (yaLoop mu cr cv mh wv g tp s k rb vb).1 = ModelCode.kInvalidInput := by
  intro g
  induction g with
  | nil => intro tp s k rb vb; exact Or.inl rfl
  | cons t rest ih =>
    intro tp s k rb vb
    rw [yaLoop]
    by_cases h1 : ¬(t.fin = true ∧ t.val ≥ 0)
    · rw [if_pos h1]; exact Or.inr rfl
    · rw [if_neg h1]
      by_cases h2 : t.val < tp
      · rw [if_pos h2]; exact Or.inr rfl
      · rw [if_neg h2]
        cases hinteg : (if t.val - tp > 0 then
            rk4Iter mu cr cv ((t.val - tp) / ((⌈(t.val - tp) / mh⌉₊ : ℕ) : ℝ))
              ⌈(t.val - tp) / mh⌉₊ tp s
          else some s) with
        | none => exact Or.inr rfl
        | some s' => exact ih _ _ _ _ _

theorem yaLoop_ok_good_and_chain (mu : ℝ) (cr cv : Vec3) (mh : ℝ) (wv : Bool) :
    ∀ (g : List Fd) (tp : ℝ) (s : State6) (k : ℕ) (rb vb : List Vec3),
      (yaLoop mu cr cv mh wv g tp s k rb vb).1 = ModelCode.kOk →
      (∀ t ∈ g, t.fin = true ∧ t.val ≥ 0) ∧ List.Chain (· ≤ ·) tp (g.map Fd.val) := by
  intro g
  induction g with
  | nil => intro tp s k rb vb _; exact ⟨fun t ht => absurd ht (List.not_mem_nil t), List.Chain.nil⟩
  | cons t rest ih =>
    intro tp s k rb vb hok
    rw [yaLoop] at hok
    by_cases h1 : ¬(t.fin = true ∧ t.val ≥ 0)
    · rw [if_pos h1] at hok
      exact nomatch hok
    · rw [if_neg h1] at hok
      by_cases h2 : t.val < tp
      · rw [if_pos h2] at hok
        exact nomatch hok
      · rw [if_neg h2] at hok
        cases hinteg : (if t.val - tp > 0 then
            rk4Iter mu cr cv ((t.val - tp) / ((⌈(t.val - tp) / mh⌉₊ : ℕ) : ℝ))
              ⌈(t.val - tp) / mh⌉₊ tp s
          else some s) with
        | none =>
          rw [hinteg] at hok
          exact nomatch hok
        | some s' =>
          rw [hinteg] at hok
          obtain ⟨hgood, hchain⟩ := ih t.val s' (k + 1) _ _ hok
          refine ⟨?_, ?_⟩
          · intro u hu
            rcases List.mem_cons.mp hu with heq | htl
            · exact heq ▸ not_not.mp h1
            · exact hgood u htl
          · exact List.Chain.cons (not_lt.mp h2) hchain

theorem hcw_insufficient (x0 : RelStateRic) (n : Fd) (grid : List Fd)
    (rb vb : Option (List Vec3)) (hp : hcwValidParams x0 n) (hne : grid.length ≠ 0)
    (hcap : rb = none ∨ ∃ l, rb = some l ∧ l.length < grid.length) :
    (ModelHCW.predict_hcw x0 n grid rb vb).1.code = ModelCode.kInsufficientOutputCapacity := by
  rw [ModelHCW.predict_hcw.eq_def, if_neg (not_not_intro hp.1),
    if_neg (not_not_intro ⟨hp.2.1, hp.2.2⟩), if_neg hne]
  rcases hcap with hnone | ⟨l, hl, hlt⟩
  · rw [hnone]
  · rw [hl]
    dsimp only
    rw [if_pos hlt]

theorem hcw_vel_untouched (x0 : RelStateRic) (n : Fd) (grid : List Fd)
    (rb vb : Option (List Vec3)) (hv : ¬velCapacity vb grid.length) :
    (ModelHCW.predict_hcw x0 n grid rb vb).2.2 = vb := by
  rw [ModelHCW.predict_hcw.eq_def]
  by_cases h1 : ¬(n.fin = true ∧ n.val > 0)
  · rw [if_pos h1]
  · rw [if_neg h1]
    by_cases h2 : ¬(x0.r_ric.finAll ∧ x0.v_ric.finAll)
    · rw [if_pos h2]
    · rw [if_neg h2]
      by_cases h3 : grid.length = 0
      · rw [if_pos h3]
      · rw [if_neg h3]
        cases rb with
        | none => rfl
        | some l =>
          dsimp only
          by_cases h4 : l.length < grid.length
          · rw [if_pos h4]
          · rw [if_neg h4]
            have hwv : (vb.isSome && decide (grid.length ≤ (vb.getD []).length)) = false := by
              cases vb with
              | none => rfl
              | some vbl =>
                simp only [Option.isSome_some, Bool.true_and, decide_eq_false_iff_not,
                  Option.getD_some]
                intro hle
                exact hv ⟨vbl, rfl, hle⟩
            simp only [hwv, Bool.false_eq_true, if_false]

theorem hcw_bad_offset (x0 : RelStateRic) (n : Fd) (grid : List Fd)
    (l : List Vec3) (vb : Option (List Vec3)) (hp : hcwValidParams x0 n)
    (hcap : grid.length ≤ l.length)
    (hbad : ∃ t ∈ grid, ¬(t.fin = true ∧ t.val ≥ 0)) :
    (ModelHCW.predict_hcw x0 n grid (some l) vb).1.code = ModelCode.kInvalidInput := by
  have hne : grid.length ≠ 0 := by
    obtain ⟨t, ht, -⟩ := hbad
    exact List.length_pos.mpr (List.ne_nil_of_mem ht) |>.ne'
  rw [ModelHCW.predict_hcw.eq_def, if_neg (not_not_intro hp.1),
    if_neg (not_not_intro ⟨hp.2.1, hp.2.2⟩), if_neg hne]
  dsimp only
  rw [if_neg (not_lt.mpr hcap)]
  have hloop := hcwLoop_invalid_of_bad n.val x0
    (vb.isSome && decide (grid.length ≤ (vb.getD []).length)) grid 0 l (vb.getD []) hbad
  rcases hres : hcwLoop n.val x0
      (vb.isSome && decide (grid.length ≤ (vb.getD []).length)) grid 0 l (vb.getD [])
    with ⟨c, rb', vb'⟩
  rw [hres] at hloop
  exact hloop

theorem hcw_success (x0 : RelStateRic) (n : Fd) (grid : List Fd)
    (l : List Vec3) (vb : Option (List Vec3)) (hp : hcwValidParams x0 n)
    (hcap : grid.length ≤ l.length)
    (hgood : ∀ t ∈ grid, t.fin = true ∧ t.val ≥ 0) :
    (ModelHCW.predict_hcw x0 n grid (some l) vb).1.code = ModelCode.kOk ∧
    (ModelHCW.predict_hcw x0 n grid (some l) vb).1.steps_written = grid.length := by
  rw [ModelHCW.predict_hcw.eq_def, if_neg (not_not_intro hp.1),
    if_neg (not_not_intro ⟨hp.2.1, hp.2.2⟩)]
  by_cases h3 : grid.length = 0
  · rw [if_pos h3]
    exact ⟨rfl, h3.symm⟩
  · rw [if_neg h3]
    dsimp only
    rw [if_neg (not_lt.mpr hcap)]
    have hloop := hcwLoop_ok_of_good n.val x0
      (vb.isSome && decide (grid.length ≤ (vb.getD []).length)) grid 0 l (vb.getD []) hgood
    rcases hres : hcwLoop n.val x0
        (vb.isSome && decide (grid.length ≤ (vb.getD []).length)) grid 0 l (vb.getD [])
      with ⟨c, rb', vb'⟩
    rw [hres] at hloop
    refine ⟨hloop, ?_⟩
    rw [show c = ModelCode.kOk from hloop]
    simp

theorem ya_insufficient (x0 : RelStateRic) (p : YaStmParams) (grid : List Fd)
    (rb vb : Option (List Vec3)) (hp : yaValidParams x0 p) (hne : grid.length ≠ 0)
    (hcap : rb = none ∨ ∃ l, rb = some l ∧ l.length < grid.length) :
    (ModelYA_STM.predict_ya_stm x0 p grid rb vb).1.code =
      ModelCode.kInsufficientOutputCapacity := by
  rw [ModelYA_STM.predict_ya_stm.eq_def, if_neg (not_not_intro hp.1),
    if_neg (not_not_intro hp.2.1), if_neg (not_not_intro ⟨hp.2.2.1, hp.2.2.2.1⟩),
    if_neg (not_not_intro ⟨hp.2.2.2.2.1, hp.2.2.2.2.2⟩), if_neg hne]
  rcases hcap with hnone | ⟨l, hl, hlt⟩
  · rw [hnone]
  · rw [hl]
    dsimp only
    rw [if_pos hlt]

theorem ya_vel_untouched (x0 : RelStateRic) (p : YaStmParams) (grid : List Fd)
    (rb vb : Option (List Vec3)) (hv : ¬velCapacity vb grid.length) :
    (ModelYA_STM.predict_ya_stm x0 p grid rb vb).2.2 = vb := by
  rw [ModelYA_STM.predict_ya_stm.eq_def]
  by_cases h1 : ¬(p.mu.fin = true ∧ p.mu.val > 0)
  · rw [if_pos h1]
  · rw [if_neg h1]
    by_cases h1' : ¬(p.max_dt_sec.fin = true ∧ p.max_dt_sec.val > 0)
    · rw [if_pos h1']
    · rw [if_neg h1']
      by_cases h2 : ¬(p.chief_r0_i.finAll ∧ p.chief_v0_i.finAll)
      · rw [if_pos h2]
      · rw [if_neg h2]
        by_cases h2' : ¬(x0.r_ric.finAll ∧ x0.v_ric.finAll)
        · rw [if_pos h2']
        · rw [if_neg h2']
          by_cases h3 : grid.length = 0
          · rw [if_pos h3]
          · rw [if_neg h3]
            cases rb with
            | none => rfl
            | some l =>
              dsimp only
              by_cases h4 : l.length < grid.length
              · rw [if_pos h4]
              · rw [if_neg h4]
                have hwv : (vb.isSome && decide (grid.length ≤ (vb.getD []).length))
                    = false := by
                  cases vb with
                  | none => rfl
                  | some vbl =>
                    simp only [Option.isSome_some, Bool.true_and, decide_eq_false_iff_not,
                      Option.getD_some]
                    intro hle
                    exact hv ⟨vbl, rfl, hle⟩
                simp only [hwv, Bool.false_eq_true, if_false]

theorem ya_result_code (x0 : RelStateRic) (p : YaStmParams) (grid : List Fd)
    (l : List Vec3) (vb : Option (List Vec3)) (hp : yaValidParams x0 p)
    (hne : grid.length ≠ 0) (hcap : grid.length ≤ l.length) :
    (ModelYA_STM.predict_ya_stm x0 p grid (some l) vb).1.code =
      (yaLoop p.mu.val p.chief_r0_i.val p.chief_v0_i.val p.max_dt_sec.val
        (vb.isSome && decide (grid.length ≤ (vb.getD []).length)) grid 0
        ⟨x0.r_ric.val.x, x0.r_ric.val.y, x0.r_ric.val.z,
         x0.v_ric.val.x, x0.v_ric.val.y, x0.v_ric.val.z⟩ 0 l (vb.getD [])).1 := by
  rw [ModelYA_STM.predict_ya_stm.eq_def, if_neg (not_not_intro hp.1),
    if_neg (not_not_intro hp.2.1), if_neg (not_not_intro ⟨hp.2.2.1, hp.2.2.2.1⟩),
    if_neg (not_not_intro ⟨hp.2.2.2.2.1, hp.2.2.2.2.2⟩), if_neg hne]
  dsimp only
  rw [if_neg (not_lt.mpr hcap)]

theorem ya_bad_offset (x0 : RelStateRic) (p : YaStmParams) (grid : List Fd)
    (l : List Vec3) (vb : Option (List Vec3)) (hp : yaValidParams x0 p)
    (hcap : grid.length ≤ l.length)
    (hbad : ∃ t ∈ grid, ¬(t.fin = true ∧ t.val ≥ 0)) :
    (ModelYA_STM.predict_ya_stm x0 p grid (some l) vb).1.code =
      ModelCode.kInvalidInput := by
  have hne : grid.length ≠ 0 := by
    obtain ⟨t, ht, -⟩ := hbad
    exact (List.length_pos.mpr (List.ne_nil_of_mem ht)).ne'
  rw [ya_result_code x0 p grid l vb hp hne hcap]
  rcases yaLoop_code_cases p.mu.val p.chief_r0_i.val p.chief_v0_i.val p.max_dt_sec.val
      (vb.isSome && decide (grid.length ≤ (vb.getD []).length)) grid 0
      ⟨x0.r_ric.val.x, x0.r_ric.val.y, x0.r_ric.val.z,
       x0.v_ric.val.x, x0.v_ric.val.y, x0.v_ric.val.z⟩ 0 l (vb.getD [])
    with hok | hinv
  · obtain ⟨hgood, -⟩ := yaLoop_ok_good_and_chain _ _ _ _ _ _ _ _ _ _ _ hok
    obtain ⟨t, ht, hb⟩ := hbad
    exact absurd (hgood t ht) hb
  · exact hinv

theorem ya_not_nondecreasing (x0 : RelStateRic) (p : YaStmParams) (grid : List Fd)
    (l : List Vec3) (vb : Option (List Vec3)) (hp : yaValidParams x0 p)
    (hcap : grid.length ≤ l.length)
    (hdec : ¬List.Chain' (· ≤ ·) (grid.map Fd.val)) :
    (ModelYA_STM.predict_ya_stm x0 p grid (some l) vb).1.code =
      ModelCode.kInvalidInput := by
  have hne : grid.length ≠ 0 := by
    intro h
    rw [List.length_eq_zero] at h
    subst h
    exact hdec (by simp)
  rw [ya_result_code x0 p grid l vb hp hne hcap]
  rcases yaLoop_code_cases p.mu.val p.chief_r0_i.val p.chief_v0_i.val p.max_dt_sec.val
      (vb.isSome && decide (grid.length ≤ (vb.getD []).length)) grid 0
      ⟨x0.r_ric.val.x, x0.r_ric.val.y, x0.r_ric.val.z,
       x0.v_ric.val.x, x0.v_ric.val.y, x0.v_ric.val.z⟩ 0 l (vb.getD [])
    with hok | hinv
  · obtain ⟨-, hchain⟩ := yaLoop_ok_good_and_chain _ _ _ _ _ _ _ _ _ _ _ hok
    cases hmap : grid.map Fd.val with
    | nil =>
      rw [hmap] at hdec
      exact absurd List.chain'_nil hdec
    | cons a as =>
      rw [hmap] at hdec hchain
      rcases List.chain_cons.mp hchain with ⟨-, htail⟩
      exact absurd (show List.Chain' (· ≤ ·) (a :: as) from htail) hdec
  · exact hinv

/-- **C8 (amended).** Buffer and grid contracts of both models: (1, 2) with
valid parameters and a non-empty grid, a null or undersized position span
yields `InsufficientOutputCapacity`; (3, 4) the velocity span is written only
when it has capacity for every step — otherwise it is returned untouched;
(5, 6) any negative or non-finite time offset yields `InvalidInput`; (7) the
grids are consumed in ascending *index* order, and `ModelHCW` accepts offsets
in any value order (every all-finite non-negative grid succeeds, strictly
descending ones included); (8) `ModelYA_STM` requires a non-decreasing (not
strictly ascending) grid and reports `InvalidInput` on any grid whose values
are not non-decreasing. -/
theorem models_capacity_velocity_and_grid_contract :
    (∀ (x0 : RelStateRic) (n : Fd) (grid : List Fd) (rb vb : Option (List Vec3)),
      hcwValidParams x0 n → grid.length ≠ 0 →
      (rb = none ∨ ∃ l, rb = some l ∧ l.length < grid.length) →
      (ModelHCW.predict_hcw x0 n grid rb vb).1.code =
        ModelCode.kInsufficientOutputCapacity) ∧
    (∀ (x0 : RelStateRic) (p : YaStmParams) (grid : List Fd)
        (rb vb : Option (List Vec3)),
      yaValidParams x0 p → grid.length ≠ 0 →
      (rb = none ∨ ∃ l, rb = some l ∧ l.length < grid.length) →
      (ModelYA_STM.predict_ya_stm x0 p grid rb vb).1.code =
        ModelCode.kInsufficientOutputCapacity) ∧
    (∀ (x0 : RelStateRic) (n : Fd) (grid : List Fd) (rb vb : Option (List Vec3)),
      ¬velCapacity vb grid.length →
      (ModelHCW.predict_hcw x0 n grid rb vb).2.2 = vb) ∧
    (∀ (x0 : RelStateRic) (p : YaStmParams) (grid : List Fd)
        (rb vb : Option (List Vec3)),
      ¬velCapacity vb grid.length →
      (ModelYA_STM.predict_ya_stm x0 p grid rb vb).2.2 = vb) ∧
    (∀ (x0 : RelStateRic) (n : Fd) (grid : List Fd) (l : List Vec3)
        (vb : Option (List Vec3)),
      hcwValidParams x0 n → grid.length ≤ l.length →
      (∃ t ∈ grid, ¬(t.fin = true ∧ t.val ≥ 0)) →
      (ModelHCW.predict_hcw x0 n grid (some l) vb).1.code = ModelCode.kInvalidInput) ∧
    (∀ (x0 : RelStateRic) (p : YaStmParams) (grid : List Fd) (l : List Vec3)
        (vb : Option (List Vec3)),
      yaValidParams x0 p → grid.length ≤ l.length →
      (∃ t ∈ grid, ¬(t.fin = true ∧ t.val ≥ 0)) →
      (ModelYA_STM.predict_ya_stm x0 p grid (some l) vb).1.code =
        ModelCode.kInvalidInput) ∧
    (∀ (x0 : RelStateRic) (n : Fd) (grid : List Fd) (l : List Vec3)
        (vb : Option (List Vec3)),
      hcwValidParams x0 n → grid.length ≤ l.length →
      (∀ t ∈ grid, t.fin = true ∧ t.val ≥ 0) →
      (ModelHCW.predict_hcw x0 n grid (some l) vb).1.code = ModelCode.kOk ∧
      (ModelHCW.predict_hcw x0 n grid (some l) vb).1.steps_written = grid.length) ∧
    (∀ (x0 : RelStateRic) (p : YaStmParams) (grid : List Fd) (l : List Vec3)
        (vb : Option (List Vec3)),
      yaValidParams x0 p → grid.length ≤ l.length →
      ¬List.Chain' (· ≤ ·) (grid.map Fd.val) →
      (ModelYA_STM.predict_ya_stm x0 p grid (some l) vb).1.code =
        ModelCode.kInvalidInput) :=
  ⟨hcw_insufficient, ya_insufficient, hcw_vel_untouched, ya_vel_untouched,
   hcw_bad_offset, ya_bad_offset, hcw_success, ya_not_nondecreasing⟩

/-- The all-zero (finite) initial relative state. -/
def zeroRel : RelStateRic := ⟨FVec3.ofVec Vec3.zero, FVec3.ofVec Vec3.zero⟩

/-- Counterexample to C8 as stated: a grid that violates strictly ascending
order (offsets `[1, 0]`) is accepted by `ModelHCW::predict_hcw` with `kOk`
(the claim says it must fail with `InvalidInput`). -/
theorem hcw_accepts_descending_grid :
    ¬List.Chain' (· ≤ ·) (([fd 1, fd 0] : List Fd).map Fd.val) ∧
    (ModelHCW.predict_hcw zeroRel (fd 1) [fd 1, fd 0]
      (some [Vec3.zero, Vec3.zero]) none).1.code = ModelCode.kOk := by
  constructor
  · intro hch
    simp only [List.map_cons, List.map_nil, fd, List.chain'_cons, List.chain'_singleton,
      and_true] at hch
    norm_num at hch
  · have hp : hcwValidParams zeroRel (fd 1) :=
      ⟨⟨rfl, by norm_num [fd]⟩, ⟨rfl, rfl, rfl⟩, ⟨rfl, rfl, rfl⟩⟩
    have hgood : ∀ t ∈ ([fd 1, fd 0] : List Fd), t.fin = true ∧ t.val ≥ 0 := by
      intro t ht
      rcases List.mem_cons.mp ht with h | h
      · subst h
        exact ⟨rfl, by norm_num [fd]⟩
      · rcases List.mem_cons.mp h with h | h
        · subst h
          exact ⟨rfl, by norm_num [fd]⟩
        · exact absurd h (List.not_mem_nil t)
    exact (hcw_success zeroRel (fd 1) [fd 1, fd 0] [Vec3.zero, Vec3.zero] none hp
      (le_refl _) hgood).1

/-- **C10.** With valid parameters and a finite initial state, both models
return `Ok` with `steps_written = 0` on an empty time grid and write nothing
at all — the capacity check is skipped, so even null output buffers are
accepted. -/
theorem models_empty_grid_no_write (x0h : RelStateRic) (n : Fd)
    (rh vh : Option (List Vec3)) (x0y : RelStateRic) (p : YaStmParams)
    (ry vy : Option (List Vec3)) (hH : hcwValidParams x0h n)
    (hY : yaValidParams x0y p) :
    ModelHCW.predict_hcw x0h n [] rh vh = (⟨ModelCode.kOk, 0⟩, rh, vh) ∧
    ModelYA_STM.predict_ya_stm x0y p [] ry vy = (⟨ModelCode.kOk, 0⟩, ry, vy) := by
  constructor
  · rw [ModelHCW.predict_hcw.eq_def, if_neg (not_not_intro hH.1),
      if_neg (not_not_intro ⟨hH.2.1, hH.2.2⟩),
      if_pos (show ([] : List Fd).length = 0 from rfl)]
  · rw [ModelYA_STM.predict_ya_stm.eq_def, if_neg (not_not_intro hY.1),
      if_neg (not_not_intro hY.2.1), if_neg (not_not_intro ⟨hY.2.2.1, hY.2.2.2.1⟩),
      if_neg (not_not_intro ⟨hY.2.2.2.2.1, hY.2.2.2.2.2⟩),
      if_pos (show ([] : List Fd).length = 0 from rfl)]

/-- Concrete valid YA parameters for the C10 witness. -/
def wYaP : YaStmParams := ⟨fd 1, FVec3.ofVec ⟨1, 0, 0⟩, FVec3.ofVec ⟨0, 1, 0⟩, fd 1⟩

/-- Witness for C10 at concrete inputs, with both output spans null. -/
theorem models_empty_grid_witness :
    hcwValidParams zeroRel (fd 1) ∧ yaValidParams zeroRel wYaP ∧
    (ModelHCW.predict_hcw zeroRel (fd 1) [] none none =
        (⟨ModelCode.kOk, 0⟩, none, none) ∧
      ModelYA_STM.predict_ya_stm zeroRel wYaP [] none none =
        (⟨ModelCode.kOk, 0⟩, none, none)) := by
  have h1 : hcwValidParams zeroRel (fd 1) :=
    ⟨⟨rfl, by norm_num [fd]⟩, ⟨rfl, rfl, rfl⟩, ⟨rfl, rfl, rfl⟩⟩
  have h2 : yaValidParams zeroRel wYaP :=
    ⟨⟨rfl, by norm_num [wYaP, fd]⟩, ⟨rfl, by norm_num [wYaP, fd]⟩, ⟨rfl, rfl, rfl⟩, ⟨rfl, rfl, rfl⟩,
     ⟨rfl, rfl, rfl⟩, ⟨rfl, rfl, rfl⟩⟩
  exact ⟨h1, h2, models_empty_grid_no_write zeroRel (fd 1) none none zeroRel wYaP
    none none h1 h2⟩

/-! ## C6: the model's internal two-body solver vs the provider's -/

theorem stumpff_C_zero : stumpff_C 0 = 1 / 2 := by
  rw [stumpff_C, if_pos (by norm_num : |(0 : ℝ)| < 1e-8)]
  norm_num

theorem stumpff_S_zero : stumpff_S 0 = 1 / 6 := by
  rw [stumpff_S, if_pos (by norm_num : |(0 : ℝ)| < 1e-8)]
  norm_num

theorem smul_one_add_smul_zero (a b : Vec3) :
    (Vec3.smul 1 a).add (Vec3.smul 0 b) = a := by
  simp only [Vec3.smul, Vec3.add]
  ext <;> dsimp only <;> ring

theorem smul_zero_add_smul_one (a b : Vec3) :
    (Vec3.smul 0 a).add (Vec3.smul 1 b) = b := by
  simp only [Vec3.smul, Vec3.add]
  ext <;> dsimp only <;> ring

/-- At `dt = 0` the Newton iteration is stationary at its seed `x = 0`, so the
universal-variable pipeline returns exactly the epoch state for *any* fixed
iteration count. -/
theorem uvCompute_dt_zero (iters : ℕ) (r0 v0 : Vec3) (mu : ℝ)
    (hr : 0 < vnorm r0) :
    uvCompute iters r0 v0 mu 0 = ⟨r0, v0, vnorm r0⟩ := by
  have hne : vnorm r0 ≠ 0 := ne_of_gt hr
  have hstep : ∀ rv oma alpha smu : ℝ,
      uvNewtonStep rv oma (vnorm r0) smu 0 alpha 0 = 0 := by
    intro rv oma alpha smu
    simp [uvNewtonStep, hne]
  simp only [uvCompute, mul_zero, zero_div, ite_self]
  rw [Function.iterate_fixed (hstep _ _ _ _)]
  simp [smul_one_add_smul_zero, smul_zero_add_smul_one]

/-- **C6 (amended, positive part).** The model's internal propagator and the
provider run the same universal-variable solve (same seed, Stumpff functions
and update formulas — `uvCompute`), differing only in the fixed Newton
iteration count (8 vs 12); when the iteration is stationary, e.g. for
`dt = 0`, both produce exactly the same chief state, namely the epoch state. -/
theorem model_provider_same_solver_dt_zero (r0 v0 : Vec3) (mu tE : ℝ) (fid : ℕ)
    (hmu : 0 < mu) (hr : 0 < vnorm r0) :
    propagate_two_body_universal r0 v0 mu 0 = some (r0, v0) ∧
    TwoBodyChiefProvider.get ⟨some fid, fd mu, fd tE, FVec3.ofVec r0, FVec3.ofVec v0⟩
        (fd tE) =
      ⟨fd tE, FVec3.ofVec r0, FVec3.ofVec v0, some fid, ProviderCode.kOk⟩ := by
  constructor
  · rw [propagate_two_body_universal, if_neg (not_not_intro hmu),
      if_neg (not_not_intro hr)]
    have h8 := uvCompute_dt_zero 8 r0 v0 mu hr
    rw [h8]
    rw [if_neg (not_not_intro hr)]
  · rw [TwoBodyChiefProvider.get]
    rw [if_neg (by simp : ¬(some fid = (none : Option ℕ)))]
    rw [if_neg (not_not_intro ⟨rfl, hmu⟩)]
    rw [if_neg (not_not_intro ⟨rfl, rfl, ⟨rfl, rfl, rfl⟩, ⟨rfl, rfl, rfl⟩⟩)]
    have hval : (FVec3.ofVec r0).val = r0 := rfl
    rw [if_neg (not_not_intro (by rw [hval]; exact hr))]
    have hz : (fd tE).val - (fd tE).val = 0 := sub_self _
    rw [hval, show (FVec3.ofVec v0).val = v0 from rfl, hz]
    dsimp only [fd]
    rw [uvCompute_dt_zero 12 r0 v0 mu hr]
    rw [if_pos hr]

/-- Witness for the amended C6 theorem at `r0 = (1,0,0)`, `v0 = (1,1,0)`,
`μ = 1`, epoch `tE = 0`. -/
theorem model_provider_same_solver_witness :
    (0 : ℝ) < 1 ∧ 0 < vnorm ⟨1, 0, 0⟩ ∧
    (propagate_two_body_universal ⟨1, 0, 0⟩ ⟨1, 1, 0⟩ 1 0 = some (⟨1, 0, 0⟩, ⟨1, 1, 0⟩) ∧
      TwoBodyChiefProvider.get
          ⟨some 0, fd 1, fd 0, FVec3.ofVec ⟨1, 0, 0⟩, FVec3.ofVec ⟨1, 1, 0⟩⟩ (fd 0) =
        ⟨fd 0, FVec3.ofVec ⟨1, 0, 0⟩, FVec3.ofVec ⟨1, 1, 0⟩, some 0,
          ProviderCode.kOk⟩) := by
  have h1 : (0 : ℝ) < 1 := by norm_num
  have h2 : (0 : ℝ) < vnorm ⟨1, 0, 0⟩ := by
    have : dot (⟨1, 0, 0⟩ : Vec3) ⟨1, 0, 0⟩ = 1 := by norm_num [dot]
    rw [vnorm, this, Real.sqrt_one]
    norm_num
  exact ⟨h1, h2, model_provider_same_solver_dt_zero ⟨1, 0, 0⟩ ⟨1, 1, 0⟩ 1 0 0 h1 h2⟩

/-! The concrete Newton iteration at `r0 = (1,0,0)`, `v0 = (1,1,0)`, `μ = 1`,
`dt = 100`: here `α = 0` (a parabolic chief), so every Stumpff evaluation
sits in the series branch at `z = 0` and the universal Kepler equation
reduces to the cubic `F(x) = x³/6 + x²/2 + x − 100` solved by Newton from
the deterministic seed `x₀ = 100`.  `F` is positive and strictly convex
along the iteration, so the iterates strictly decrease toward the root
(near `7.3347`), and convergence from the far seed is slow: explicit
rational sandwich bounds below show the 8th iterate still exceeds
`7.34779` while the 12th is below `7.334736`, a gap far above
double-precision resolution, so 8 and 12 iterations give materially
different anomalies and hence different propagated states. -/

/-- The cubic `F` of the concrete instance. -/
def cxF (x : ℝ) : ℝ := x ^ 3 / 6 + x ^ 2 / 2 + x - 100

/-- Its derivative. -/
def cxdF (x : ℝ) : ℝ := x ^ 2 / 2 + x + 1

/-- The Newton map of the concrete instance. -/
def cxN (x : ℝ) : ℝ := x - cxF x / cxdF x

/-- The Newton iterates from the deterministic seed `x₀ = 100`. -/
def cxSeq (n : ℕ) : ℝ := cxN^[n] 100

theorem cxdF_pos (x : ℝ) : 0 < cxdF x := by
  simp only [cxdF]
  nlinarith [sq_nonneg (x + 1)]

theorem cx_step_eq (x : ℝ) : uvNewtonStep 1 1 1 1 100 0 x = cxN x := by
  simp only [uvNewtonStep, zero_mul, stumpff_C_zero, stumpff_S_zero, mul_zero, sub_zero,
    one_mul, mul_one]
  split
  · rename_i h
    have hA := not_not.mp h
    exfalso
    nlinarith [sq_nonneg (x + 1), hA]
  · rename_i h
    have hA := not_not.mp h
    have hd : x ^ 2 / 2 + x + 1 ≠ 0 := ne_of_gt (by nlinarith [sq_nonneg (x + 1)])
    simp only [cxN, cxF, cxdF]
    field_simp
    ring

theorem cxN_lt (x : ℝ) (hF : 0 < cxF x) : cxN x < x := by
  have hd := cxdF_pos x
  have hq : 0 < cxF x / cxdF x := div_pos hF hd
  simp only [cxN]
  linarith

theorem cxN_pos (x : ℝ) (hx : 0 < x) : 0 < cxN x := by
  have hd := cxdF_pos x
  have key : cxN x = (x ^ 3 / 3 + x ^ 2 / 2 + 100) / cxdF x := by
    simp only [cxN, cxF, cxdF]
    field_simp
    ring
  rw [key]
  apply div_pos _ hd
  nlinarith [pow_pos hx 3, pow_pos hx 2]

theorem cxF_next_pos (x : ℝ) (hx : 0 < x) (hF : 0 < cxF x) : 0 < cxF (cxN x) := by
  have hd := cxdF_pos x
  have h1 : cxN x < x := cxN_lt x hF
  have h2 : 0 < cxN x := cxN_pos x hx
  have hdiff : cxN x - x = -(cxF x / cxdF x) := by
    simp only [cxN]
    ring
  have hmul : cxdF x * (cxN x - x) = -cxF x := by
    rw [hdiff]
    field_simp
    ring
  have htay : cxF (cxN x) =
      cxF x + cxdF x * (cxN x - x) + (cxN x - x) ^ 2 * (cxN x + 2 * x + 3) / 6 := by
    simp only [cxF, cxdF]
    ring
  have hxs : 0 < x - cxN x := by linarith
  have hsq : 0 < (cxN x - x) ^ 2 := by
    have := pow_pos hxs 2
    nlinarith
  rw [htay, hmul]
  nlinarith [mul_pos hsq (show 0 < cxN x + 2 * x + 3 by linarith)]

theorem cxSeq_invariant : ∀ n, 0 < cxSeq n ∧ 0 < cxF (cxSeq n) ∧ cxSeq n ≤ 100 := by
  intro n
  induction n with
  | zero =>
    have h0 : cxSeq 0 = (100 : ℝ) := rfl
    refine ⟨?_, ?_, ?_⟩
    · rw [h0]; norm_num
    · rw [h0]; norm_num [cxF]
    · rw [h0]
  | succ m ih =>
    have hstep : cxSeq (m + 1) = cxN (cxSeq m) := Function.iterate_succ_apply' cxN m 100
    obtain ⟨hp, hF, hle⟩ := ih
    refine ⟨?_, ?_, ?_⟩
    · rw [hstep]
      exact cxN_pos _ hp
    · rw [hstep]
      exact cxF_next_pos _ hp hF
    · rw [hstep]
      have := cxN_lt _ hF
      linarith

theorem cxSeq_strict_dec (n : ℕ) : cxSeq (n + 1) < cxSeq n := by
  have hstep : cxSeq (n + 1) = cxN (cxSeq n) := Function.iterate_succ_apply' cxN n 100
  rw [hstep]
  exact cxN_lt _ (cxSeq_invariant n).2.1

theorem cxSeq_12_lt_8 : cxSeq 12 < cxSeq 8 := by
  have h1 := cxSeq_strict_dec 8
  have h2 := cxSeq_strict_dec 9
  have h3 := cxSeq_strict_dec 10
  have h4 := cxSeq_strict_dec 11
  linarith

theorem sumSqPos (a b : ℝ) (h : ¬(a = 0 ∧ b = 0)) : 0 < a * a + b * b := by
  by_cases hb : b = 0
  · have ha : a ≠ 0 := fun ha0 => h ⟨ha0, hb⟩
    have ha2 : 0 < a * a := by
      rcases lt_or_gt_of_ne ha with h1 | h1 <;> nlinarith
    nlinarith [mul_self_nonneg b]
  · have hb2 : 0 < b * b := by
      rcases lt_or_gt_of_ne hb with h1 | h1 <;> nlinarith
    nlinarith [mul_self_nonneg a]

theorem uvCompute_cx (n : ℕ) :
    (uvCompute n ⟨1, 0, 0⟩ ⟨1, 1, 0⟩ 1 100).r.y = 100 - cxSeq n ^ 3 / 6 ∧
    0 < (uvCompute n ⟨1, 0, 0⟩ ⟨1, 1, 0⟩ 1 100).rn := by
  have hd1 : dot (⟨1, 0, 0⟩ : Vec3) ⟨1, 0, 0⟩ = 1 := by norm_num [dot]
  have hv1 : vnorm (⟨1, 0, 0⟩ : Vec3) = 1 := by rw [vnorm, hd1, Real.sqrt_one]
  have hd2 : dot (⟨1, 1, 0⟩ : Vec3) ⟨1, 1, 0⟩ = 2 := by norm_num [dot]
  have hd3 : dot (⟨1, 0, 0⟩ : Vec3) ⟨1, 1, 0⟩ = 1 := by norm_num [dot]
  have hstepf : uvNewtonStep 1 1 1 1 100 0 = cxN := funext cx_step_eq
  obtain ⟨hxpos, -, hxle⟩ := cxSeq_invariant n
  simp only [uvCompute, hv1, hd2, hd3, Real.sqrt_one]
  norm_num [hstepf, stumpff_S_zero, stumpff_C_zero]
  rw [show cxN^[n] (100 : ℝ) = cxSeq n from rfl]
  set x := cxSeq n with hxdef
  constructor
  · simp only [Vec3.smul, Vec3.add]
    ring
  · rw [vnorm]
    apply Real.sqrt_pos.mpr
    simp only [Vec3.smul, Vec3.add, dot]
    have hkey : 0 < ((1 - x * x * (1 / 2)) + (100 - x * x * x * (1 / 6))) *
          ((1 - x * x * (1 / 2)) + (100 - x * x * x * (1 / 6))) +
        (100 - x * x * x * (1 / 6)) * (100 - x * x * x * (1 / 6)) := by
      apply sumSqPos
      rintro ⟨hfg, hg⟩
      have hx3 : x * x * x = 600 := by linarith
      have hx2 : x * x = 2 := by linarith
      have h1 : x * x * x = 2 * x := by rw [hx2]
      have hx' : x = 300 := by rw [hx3] at h1; linarith
      rw [hx'] at hx2
      norm_num at hx2
    nlinarith [hkey]

/-- The provider configured with the counterexample's epoch state:
`frame id 0`, `μ = 1`, `t_epoch = 0`, `r₀ = (1,0,0)`, `v₀ = (1,1,0)`. -/
def wCfg6 : TwoBodyConfig :=
  ⟨some 0, fd 1, fd 0, FVec3.ofVec ⟨1, 0, 0⟩, FVec3.ofVec ⟨1, 1, 0⟩⟩

/-- The Newton map of the concrete instance is monotone wherever `F ≥ 0`
(above the root, `N' = F·F''/F'² ≥ 0`): the difference satisfies the explicit
polynomial identity below whose right-hand side is a sum of products of
non-negative factors. -/
theorem cxN_mono (x y : ℝ) (hx : 0 ≤ x) (hxy : x ≤ y) (hFx : 0 ≤ cxF x) :
    cxN x ≤ cxN y := by
  have hpx := cxdF_pos x
  have hpy := cxdF_pos y
  have hx1 : cxF x / cxdF x * cxdF x = cxF x := div_mul_cancel₀ _ (ne_of_gt hpx)
  have hy1 : cxF y / cxdF y * cxdF y = cxF y := div_mul_cancel₀ _ (ne_of_gt hpy)
  have expand : (cxN y - cxN x) * (cxdF x * cxdF y) =
      (y - x) * (cxdF x * cxdF y) - cxF y / cxdF y * cxdF y * cxdF x +
        cxF x / cxdF x * cxdF x * cxdF y := by
    simp only [cxN]
    ring
  rw [hx1, hy1] at expand
  have key : (cxN y - cxN x) * (cxdF x * cxdF y) =
      (y - x) ^ 3 * cxdF x / 3 +
        (y - x) ^ 2 * (cxF x + (x + 1) * cxdF x) / 2 +
        (y - x) * (x + 1) * cxF x := by
    rw [expand]
    simp only [cxF, cxdF]
    ring
  have hd : 0 ≤ y - x := by linarith
  have t1 : 0 ≤ (y - x) ^ 3 * cxdF x / 3 :=
    div_nonneg (mul_nonneg (pow_nonneg hd 3) (le_of_lt hpx)) (by norm_num)
  have t2 : 0 ≤ (y - x) ^ 2 * (cxF x + (x + 1) * cxdF x) / 2 := by
    apply div_nonneg _ (by norm_num)
    apply mul_nonneg (sq_nonneg _)
    nlinarith [mul_nonneg (show (0 : ℝ) ≤ x + 1 by linarith) (le_of_lt hpx)]
  have t3 : 0 ≤ (y - x) * (x + 1) * cxF x :=
    mul_nonneg (mul_nonneg hd (by linarith)) hFx
  have hnum : 0 ≤ (cxN y - cxN x) * (cxdF x * cxdF y) := by
    rw [key]
    linarith
  nlinarith [hnum, mul_pos hpx hpy]

/-- One sandwich step from above: a rational upper bound propagates through
the Newton map. -/
theorem cxSeq_le_step (k : ℕ) (u u' : ℝ) (hu : cxSeq k ≤ u)
    (hu' : cxN u ≤ u') : cxSeq (k + 1) ≤ u' := by
  have hstep : cxSeq (k + 1) = cxN (cxSeq k) := Function.iterate_succ_apply' cxN k 100
  obtain ⟨hp, hF, -⟩ := cxSeq_invariant k
  rw [hstep]
  exact le_trans (cxN_mono (cxSeq k) u (le_of_lt hp) hu (le_of_lt hF)) hu'

/-- One sandwich step from below: a rational lower bound above the root
propagates through the Newton map. -/
theorem cxSeq_ge_step (k : ℕ) (l l' : ℝ) (hl0 : 0 ≤ l) (hlF : 0 ≤ cxF l)
    (hl : l ≤ cxSeq k) (hl' : l' ≤ cxN l) : l' ≤ cxSeq (k + 1) := by
  have hstep : cxSeq (k + 1) = cxN (cxSeq k) := Function.iterate_succ_apply' cxN k 100
  rw [hstep]
  exact le_trans hl' (cxN_mono l (cxSeq k) hl0 hl hlF)

/-- Quantitative lower bound on the 8th Newton iterate: `x₈ ≥ 7.34779`
(the true double value is `x₈ ≈ 7.3477903916…`). -/
theorem cxSeq_8_ge : (734779 : ℝ) / 100000 ≤ cxSeq 8 := by
  have h0 : (100 : ℝ) ≤ cxSeq 0 := le_of_eq rfl
  have h1 : (16586617 : ℝ) / 250000 ≤ cxSeq 1 :=
    cxSeq_ge_step 0 100 _ (by norm_num) (by norm_num [cxF]) h0
      (by norm_num [cxN, cxF, cxdF])
  have h2 : (1372879 : ℝ) / 31250 ≤ cxSeq 2 :=
    cxSeq_ge_step 1 (16586617 / 250000) _ (by norm_num) (by norm_num [cxF]) h1
      (by norm_num [cxN, cxF, cxdF])
  have h3 : (29039597 : ℝ) / 1000000 ≤ cxSeq 3 :=
    cxSeq_ge_step 2 (1372879 / 31250) _ (by norm_num) (by norm_num [cxF]) h2
      (by norm_num [cxN, cxF, cxdF])
  have h4 : (2403387 : ℝ) / 125000 ≤ cxSeq 4 :=
    cxSeq_ge_step 3 (29039597 / 1000000) _ (by norm_num) (by norm_num [cxF]) h3
      (by norm_num [cxN, cxF, cxdF])
  have h5 : (6471373 : ℝ) / 500000 ≤ cxSeq 5 :=
    cxSeq_ge_step 4 (2403387 / 125000) _ (by norm_num) (by norm_num [cxF]) h4
      (by norm_num [cxN, cxF, cxdF])
  have h6 : (4638979 : ℝ) / 500000 ≤ cxSeq 6 :=
    cxSeq_ge_step 5 (6471373 / 500000) _ (by norm_num) (by norm_num [cxF]) h5
      (by norm_num [cxN, cxF, cxdF])
  have h7 : (7675751 : ℝ) / 1000000 ≤ cxSeq 7 :=
    cxSeq_ge_step 6 (4638979 / 500000) _ (by norm_num) (by norm_num [cxF]) h6
      (by norm_num [cxN, cxF, cxdF])
  exact cxSeq_ge_step 7 (7675751 / 1000000) _ (by norm_num) (by norm_num [cxF]) h7
    (by norm_num [cxN, cxF, cxdF])

/-- Quantitative upper bound on the 12th Newton iterate: `x₁₂ ≤ 7.334736`
(the true double value is `x₁₂ ≈ 7.3347351338…`). -/
theorem cxSeq_12_le : cxSeq 12 ≤ (458421 : ℝ) / 62500 := by
  have h0 : cxSeq 0 ≤ (100 : ℝ) := le_of_eq rfl
  have h1 : cxSeq 1 ≤ (66346469 : ℝ) / 1000000 :=
    cxSeq_le_step 0 100 _ h0 (by norm_num [cxN, cxF, cxdF])
  have h2 : cxSeq 2 ≤ (4393213 : ℝ) / 100000 :=
    cxSeq_le_step 1 (66346469 / 1000000) _ h1 (by norm_num [cxN, cxF, cxdF])
  have h3 : cxSeq 3 ≤ (29039599 : ℝ) / 1000000 :=
    cxSeq_le_step 2 (4393213 / 100000) _ h2 (by norm_num [cxN, cxF, cxdF])
  have h4 : cxSeq 4 ≤ (19227099 : ℝ) / 1000000 :=
    cxSeq_le_step 3 (29039599 / 1000000) _ h3 (by norm_num [cxN, cxF, cxdF])
  have h5 : cxSeq 5 ≤ (12942749 : ℝ) / 1000000 :=
    cxSeq_le_step 4 (19227099 / 1000000) _ h4 (by norm_num [cxN, cxF, cxdF])
  have h6 : cxSeq 6 ≤ (231949 : ℝ) / 25000 :=
    cxSeq_le_step 5 (12942749 / 1000000) _ h5 (by norm_num [cxN, cxF, cxdF])
  have h7 : cxSeq 7 ≤ (7675753 : ℝ) / 1000000 :=
    cxSeq_le_step 6 (231949 / 25000) _ h6 (by norm_num [cxN, cxF, cxdF])
  have h8 : cxSeq 8 ≤ (7347791 : ℝ) / 1000000 :=
    cxSeq_le_step 7 (7675753 / 1000000) _ h7 (by norm_num [cxN, cxF, cxdF])
  have h9 : cxSeq 9 ≤ (1833689 : ℝ) / 250000 :=
    cxSeq_le_step 8 (7347791 / 1000000) _ h8 (by norm_num [cxN, cxF, cxdF])
  have h10 : cxSeq 10 ≤ (458421 : ℝ) / 62500 :=
    cxSeq_le_step 9 (1833689 / 250000) _ h9 (by norm_num [cxN, cxF, cxdF])
  have h11 : cxSeq 11 ≤ (458421 : ℝ) / 62500 :=
    cxSeq_le_step 10 (458421 / 62500) _ h10 (by norm_num [cxN, cxF, cxdF])
  exact cxSeq_le_step 11 (458421 / 62500) _ h11 (by norm_num [cxN, cxF, cxdF])

/-- Counterexample to C6 as stated: propagating the same epoch state
`r₀ = (1,0,0)`, `v₀ = (1,1,0)` (a parabolic chief, `α = 0`), `μ = 1`, over
the same interval `dt = 100` — a slow-converging solve where the Newton
iteration from seed `x₀ = 100` has not yet reached its fixed point by
iteration 8 — the model's internal solver (8 Newton iterations) and
`TwoBodyChiefProvider::get` (12 iterations) both succeed but compute chief
positions whose in-track components differ by more than `1/3` of a length
unit (`x₈ ≈ 7.34779` vs `x₁₂ ≈ 7.3347351`, positions `100 − x³/6`:
`≈ 33.8821` vs `≈ 34.2339`), a gap far above double-precision resolution. -/
theorem model_provider_differ_at_dt_100 :
    (propagate_two_body_universal ⟨1, 0, 0⟩ ⟨1, 1, 0⟩ 1 100).isSome = true ∧
    (TwoBodyChiefProvider.get wCfg6 (fd 100)).status = ProviderCode.kOk ∧
    ((propagate_two_body_universal ⟨1, 0, 0⟩ ⟨1, 1, 0⟩ 1 100).getD
        (Vec3.zero, Vec3.zero)).1.y + 1 / 3 <
      (TwoBodyChiefProvider.get wCfg6 (fd 100)).r_i.val.y := by
  have hd1 : dot (⟨1, 0, 0⟩ : Vec3) ⟨1, 0, 0⟩ = 1 := by norm_num [dot]
  have hv1 : vnorm (⟨1, 0, 0⟩ : Vec3) = 1 := by rw [vnorm, hd1, Real.sqrt_one]
  have hrv : (0 : ℝ) < vnorm ⟨1, 0, 0⟩ := by rw [hv1]; norm_num
  have h8 := uvCompute_cx 8
  have h12 := uvCompute_cx 12
  have hmodel : propagate_two_body_universal ⟨1, 0, 0⟩ ⟨1, 1, 0⟩ 1 100 =
      some ((uvCompute 8 ⟨1, 0, 0⟩ ⟨1, 1, 0⟩ 1 100).r,
            (uvCompute 8 ⟨1, 0, 0⟩ ⟨1, 1, 0⟩ 1 100).v) := by
    rw [propagate_two_body_universal, if_neg (not_not_intro one_pos),
      if_neg (not_not_intro hrv)]
    dsimp only
    rw [if_neg (not_not_intro h8.2)]
  have hprov : TwoBodyChiefProvider.get wCfg6 (fd 100) =
      ⟨fd 100, FVec3.ofVec (uvCompute 12 ⟨1, 0, 0⟩ ⟨1, 1, 0⟩ 1 100).r,
        FVec3.ofVec (uvCompute 12 ⟨1, 0, 0⟩ ⟨1, 1, 0⟩ 1 100).v, some 0,
        ProviderCode.kOk⟩ := by
    rw [TwoBodyChiefProvider.get]
    rw [if_neg (by simp [wCfg6] : ¬wCfg6.frameId = none)]
    rw [if_neg (not_not_intro (⟨rfl, by norm_num [wCfg6, fd]⟩ :
      wCfg6.mu.fin = true ∧ wCfg6.mu.val > 0))]
    rw [if_neg (not_not_intro ⟨rfl, rfl, ⟨rfl, rfl, rfl⟩, ⟨rfl, rfl, rfl⟩⟩)]
    rw [if_neg (not_not_intro (show vnorm wCfg6.r0.val > 0 from hrv))]
    have hdt : (fd 100).val - wCfg6.tEpoch.val = 100 := by norm_num [wCfg6, fd]
    have hr0 : wCfg6.r0.val = ⟨1, 0, 0⟩ := rfl
    have hv0 : wCfg6.v0.val = ⟨1, 1, 0⟩ := rfl
    have hmu : wCfg6.mu.val = 1 := rfl
    rw [hdt, hr0, hv0, hmu]
    dsimp only
    rw [if_pos h12.2]
    rfl
  refine ⟨by rw [hmodel]; rfl, by rw [hprov], ?_⟩
  rw [hmodel, hprov]
  have hy8 : ((uvCompute 8 ⟨1, 0, 0⟩ ⟨1, 1, 0⟩ 1 100).r,
      (uvCompute 8 ⟨1, 0, 0⟩ ⟨1, 1, 0⟩ 1 100).v).1.y = 100 - cxSeq 8 ^ 3 / 6 := h8.1
  have hy12 : (FVec3.ofVec (uvCompute 12 ⟨1, 0, 0⟩ ⟨1, 1, 0⟩ 1 100).r).val.y =
      100 - cxSeq 12 ^ 3 / 6 := h12.1
  rw [Option.getD_some]
  rw [hy8]
  have : (⟨fd 100, FVec3.ofVec (uvCompute 12 ⟨1, 0, 0⟩ ⟨1, 1, 0⟩ 1 100).r,
      FVec3.ofVec (uvCompute 12 ⟨1, 0, 0⟩ ⟨1, 1, 0⟩ 1 100).v, some 0,
      ProviderCode.kOk⟩ : ChiefState).r_i.val.y = 100 - cxSeq 12 ^ 3 / 6 := hy12
  rw [this]
  have hl8 := cxSeq_8_ge
  have hu12 := cxSeq_12_le
  have h12pos := (cxSeq_invariant 12).1
  have h8cube : (734779 / 100000 : ℝ) ^ 3 ≤ cxSeq 8 ^ 3 :=
    pow_le_pow_left₀ (by norm_num) hl8 3
  have h12cube : cxSeq 12 ^ 3 ≤ (458421 / 62500 : ℝ) ^ 3 :=
    pow_le_pow_left₀ (le_of_lt h12pos) hu12 3
  have hnum : (2 : ℝ) < (734779 / 100000 : ℝ) ^ 3 - (458421 / 62500 : ℝ) ^ 3 := by
    norm_num
  linarith

/-! ## The end-to-end predictor
(src/core/relative_predictor.cpp, src/core/time_grid.cpp) -/

/-- Function `make_time_grid` from time_grid.cpp (`grid.tau` as a list of
offsets): invalid inputs give an empty schedule, otherwise offsets
`k * cadence_sec` for `k = 0 .. k_max`. -/
def make_time_grid (horizon_sec cadence_sec : ℝ) : List ℝ :=
  if horizon_sec < 0 ∨ cadence_sec ≤ 0 then []
  else
    let k_max_d : ℤ := ⌊horizon_sec / cadence_sec⌋
    let k_max : ℕ := if 0 < k_max_d then k_max_d.toNat else 0
    (List.range (k_max + 1)).map (fun k : ℕ => (k : ℝ) * cadence_sec)

/-- Structure `bullseye_pred::VehicleState` (relative_predictor.hpp). -/
structure VehicleState where
  time_tag : Fd
  r_i : FVec3
  v_i : FVec3
  frame_id : Option ℕ
  status : ProviderCode

/-- Function `compute_mean_motion` from relative_predictor.cpp (`some n`
models returning `true` with `out_n = n`; the `isfinite` checks on the
computed `r_norm` and `n` hold identically in exact real arithmetic). -/
def compute_mean_motion (chief : ChiefState) (frame : BullseyeFrameSnapshot) :
    Option ℝ :=
  if frame.has_omega = true ∧ frame.omega_coords = OmegaCoords.kOmegaRIC ∧
      frame.omega_ric.z.fin = true ∧ frame.omega_ric.z.val > 0 then
    some frame.omega_ric.z.val
  else if ¬(chief.r_i.finAll ∧ chief.v_i.finAll) then none
  else
    let r_norm := vnorm chief.r_i.val
    if ¬(r_norm > 0) then none
    else
      let n := vnorm (cross chief.r_i.val chief.v_i.val) / (r_norm * r_norm)
      if ¬(n > 0) then none
      else some n

/-- Constant `bullseye_pred::MAX_STEPS` (core/constants.hpp). -/
def MAX_STEPS : ℕ := 600

/-- Constant `bullseye_pred::MAX_VEHICLES` (core/constants.hpp). -/
def MAX_VEHICLES : ℕ := 32

/-- The span `{buf.positions[i].data(), steps}` over fixed value-initialised
storage: the first `steps` entries of the row, zero-padded past its end. -/
def padTake (row : List Vec3) (steps : ℕ) : List Vec3 :=
  row.take steps ++ List.replicate (steps - row.length) Vec3.zero

/-- All three finiteness flags of a flagged vector, as one `Bool`. -/
def fin3b (v : FVec3) : Bool := v.x.fin && v.y.fin && v.z.fin

/-- Finiteness of the relative state handed to the model: in the exact-real
idealisation a computed component is finite precisely when every flagged
floating input feeding `inertial_to_ric_relative` is (the snapshot DCM
carries no flags: an ok snapshot's entries are validated or freshly
constructed finite arithmetic). -/
def relStateFin (dep : VehicleState) (chief : ChiefState)
    (frame : BullseyeFrameSnapshot) : Bool :=
  fin3b dep.r_i && fin3b dep.v_i && fin3b chief.r_i && fin3b chief.v_i &&
    fin3b frame.omega_ric

/-- A plain vector re-flagged at a boundary. -/
def fvWith (v : Vec3) (b : Bool) : FVec3 := ⟨⟨v.x, b⟩, ⟨v.y, b⟩, ⟨v.z, b⟩⟩

/-- The model invocation of the vehicle loop of `RelativePredictor::step`:
relative state via `inertial_to_ric_relative`, then `ModelHCW::predict_hcw`
with the position span over the row's first `steps` entries and a null
velocity span. -/
def vehicleModelCall (chief : ChiefState) (frame : BullseyeFrameSnapshot)
    (n : ℝ) (grid : List ℝ) (steps : ℕ) (dep : VehicleState)
    (row : List Vec3) :
    ModelResult × Option (List Vec3) × Option (List Vec3) :=
  let rel := inertial_to_ric_relative dep.r_i.val dep.v_i.val chief.r_i.val
    chief.v_i.val (transpose frame.C_from_ric_to_inertial)
    frame.omega_ric.val
  let b := relStateFin dep chief frame
  ModelHCW.predict_hcw ⟨fvWith rel.r b, fvWith rel.v b⟩ (fd n) (grid.map fd)
    (some (padTake row steps)) none

/-- The body of the vehicle loop of `RelativePredictor::step` as its effect on
row `i` of the back buffer: every per-vehicle skip (`continue`) leaves the row
as-is, and since the output span aliases the row, whatever the model wrote
stays in the row even when it returns a failure code. -/
def predictorRowFn (chief : ChiefState) (frame : BullseyeFrameSnapshot)
    (n : ℝ) (grid : List ℝ) (steps : ℕ) (vehGet : ℕ → Fd → VehicleState)
    (t0 : Fd) (ids : List ℕ) (i : ℕ) (row : List Vec3) : List Vec3 :=
  match ids[i]? with
  | none => row
  | some vid =>
    let dep := vehGet vid t0
    if ¬dep.status.ok ∨ dep.frame_id = none then row
    else if dep.frame_id ≠ chief.frame_id then row
    else
      ((vehicleModelCall chief frame n grid steps dep row).2.1.getD []) ++
        row.drop steps

/-- Method `RelativePredictor::step(t0, horizon_sec, cadence_sec)`
(relative_predictor.cpp).  The collaborators held by reference are passed as
functions (`ids` is the vehicle index map: `id_at i = ids[i]?`,
`size = ids.length`); the result is the state of `pub_` after the tick. -/
def RelativePredictor.step (pub : Publisher) (ids : List ℕ)
    (chiefGet : Fd → ChiefState) (vehGet : ℕ → Fd → VehicleState)
    (bullseyeUpdate : Fd → BullseyeFrameSnapshot) (t0 : Fd)
    (horizon_sec cadence_sec : ℝ) : Publisher :=
  let grid := make_time_grid horizon_sec cadence_sec
  if grid = [] then pub
  else
    let chief := chiefGet t0
    if ¬chief.status.ok ∨ chief.frame_id = none then pub
    else
      let frame := bullseyeUpdate t0
      if ¬frame.status.ok then pub
      else
        match compute_mean_motion chief frame with
        | none => pub
        | some n =>
          let steps := min grid.length MAX_STEPS
          let nveh := min ids.length MAX_VEHICLES
          let buf := pub.begin_write
          let newPos := (List.range nveh).foldl
            (fun pos i => Function.update pos i
              (predictorRowFn chief frame n grid steps vehGet t0 ids i
                (pos i))) buf.positions
          (Publisher.fill_back pub newPos).publish t0

/-- Steps (1)-(4) of a tick all succeed: non-empty grid, chief ok with a
frame-id, frame snapshot ok, mean motion resolved. -/
def tickPublishes (grid : List ℝ) (chief : ChiefState)
    (frame : BullseyeFrameSnapshot) : Prop :=
  grid ≠ [] ∧ chief.status.ok ∧ chief.frame_id ≠ none ∧
    frame.status.ok ∧ (compute_mean_motion chief frame).isSome = true

/-- Specification-side formulation of a tick (written from the claim): when
any of steps (1)-(4) fails the publisher is returned untouched (no publish);
otherwise the back buffer's rows are rewritten pointwise — row `i` by
`predictorRowFn`, from vehicle `i`'s own inputs and that row's prior content
only — and exactly one publish stamps the tick. -/
def stepSpec (pub : Publisher) (ids : List ℕ)
    (chiefGet : Fd → ChiefState) (vehGet : ℕ → Fd → VehicleState)
    (bullseyeUpdate : Fd → BullseyeFrameSnapshot) (t0 : Fd)
    (horizon_sec cadence_sec : ℝ) : Publisher :=
  let grid := make_time_grid horizon_sec cadence_sec
  let chief := chiefGet t0
  let frame := bullseyeUpdate t0
  match compute_mean_motion chief frame with
  | none => pub
  | some n =>
    if tickPublishes grid chief frame then
      let steps := min grid.length MAX_STEPS
      let nveh := min ids.length MAX_VEHICLES
      (Publisher.fill_back pub (fun j =>
        if j < nveh then
          predictorRowFn chief frame n grid steps vehGet t0 ids j
            (pub.begin_write.positions j)
        else pub.begin_write.positions j)).publish t0
    else pub

/-- The per-vehicle skip conditions of the loop body for a mapped vehicle:
deputy provider non-ok, null deputy frame-id, frame-id mismatch with the
chief, or a failing model call. -/
def vehicleSkips (chief : ChiefState) (frame : BullseyeFrameSnapshot)
    (n : ℝ) (grid : List ℝ) (steps : ℕ) (dep : VehicleState)
    (row : List Vec3) : Prop :=
  ¬dep.status.ok ∨ dep.frame_id = none ∨ dep.frame_id ≠ chief.frame_id ∨
    (vehicleModelCall chief frame n grid steps dep row).1.code ≠
      ModelCode.kOk

theorem make_time_grid_nonneg (h c : ℝ) :
    ∀ x ∈ make_time_grid h c, 0 ≤ x := by
  intro x hx
  rw [make_time_grid] at hx
  by_cases hbad : h < 0 ∨ c ≤ 0
  · rw [if_pos hbad] at hx
    exact absurd hx (List.not_mem_nil x)
  · rw [if_neg hbad] at hx
    rcases not_or.mp hbad with ⟨-, hc⟩
    simp only [List.mem_map, List.mem_range] at hx
    obtain ⟨k, -, hkx⟩ := hx
    rw [← hkx]
    exact mul_nonneg (Nat.cast_nonneg k) (le_of_lt (not_le.mp hc))

theorem make_time_grid_good (h c : ℝ) :
    ∀ t ∈ (make_time_grid h c).map fd, t.fin = true ∧ t.val ≥ 0 := by
  intro t ht
  simp only [List.mem_map] at ht
  obtain ⟨x, hx, rfl⟩ := ht
  exact ⟨rfl, make_time_grid_nonneg h c x hx⟩

theorem padTake_append_drop (row : List Vec3) (steps : ℕ)
    (h : steps ≤ row.length) : padTake row steps ++ row.drop steps = row := by
  rw [padTake, Nat.sub_eq_zero_of_le h, List.replicate_zero, List.append_nil,
    List.take_append_drop]

theorem predict_hcw_fail_spans (x0 : RelStateRic) (n : Fd) (grid : List Fd)
    (rb : List Vec3) (vb : Option (List Vec3))
    (hgood : ∀ t ∈ grid, t.fin = true ∧ t.val ≥ 0)
    (hfail : (ModelHCW.predict_hcw x0 n grid (some rb) vb).1.code ≠
      ModelCode.kOk) :
    (ModelHCW.predict_hcw x0 n grid (some rb) vb).2.1 = some rb := by
  rw [ModelHCW.predict_hcw.eq_def] at hfail ⊢
  by_cases h1 : ¬(n.fin = true ∧ n.val > 0)
  · rw [if_pos h1]
  · rw [if_neg h1] at hfail ⊢
    by_cases h2 : ¬(x0.r_ric.finAll ∧ x0.v_ric.finAll)
    · rw [if_pos h2]
    · rw [if_neg h2] at hfail ⊢
      by_cases h3 : grid.length = 0
      · rw [if_pos h3] at hfail
        exact absurd rfl hfail
      · rw [if_neg h3] at hfail ⊢
        dsimp only at hfail ⊢
        by_cases h4 : rb.length < grid.length
        · rw [if_pos h4]
        · rw [if_neg h4] at hfail
          exfalso
          have hloop := hcwLoop_ok_of_good n.val x0
            (vb.isSome && decide (grid.length ≤ (vb.getD []).length)) grid 0
            rb (vb.getD []) hgood
          rcases hres : hcwLoop n.val x0
              (vb.isSome && decide (grid.length ≤ (vb.getD []).length)) grid
              0 rb (vb.getD []) with ⟨c, rb', vb'⟩
          rw [hres] at hloop hfail
          dsimp only at hfail
          exact hfail hloop

theorem predictor_fold_pointwise (ch : ChiefState)
    (fr : BullseyeFrameSnapshot) (n : ℝ) (grid : List ℝ) (steps : ℕ)
    (vehGet : ℕ → Fd → VehicleState) (t0 : Fd) (ids : List ℕ) :
    ∀ (m : ℕ) (pos : ℕ → List Vec3),
      (List.range m).foldl
          (fun p i => Function.update p i
            (predictorRowFn ch fr n grid steps vehGet t0 ids i (p i)))
          pos =
        fun j => if j < m then
            predictorRowFn ch fr n grid steps vehGet t0 ids j (pos j)
          else pos j := by
  intro m
  induction m with
  | zero =>
    intro pos
    funext j
    simp [List.range_zero]
  | succ k ih =>
    intro pos
    rw [List.range_succ, List.foldl_append, ih pos]
    simp only [List.foldl_cons, List.foldl_nil]
    funext j
    by_cases hj : j = k
    · subst hj
      simp only [Function.update_same]
      rw [if_pos (Nat.lt_succ_self j), if_neg (lt_irrefl j)]
    · rw [Function.update_noteq hj]
      by_cases hjk : j < k
      · rw [if_pos hjk, if_pos (Nat.lt_succ_of_lt hjk)]
      · rw [if_neg hjk, if_neg (by omega)]

/-- **C1.** Tick semantics of `RelativePredictor::step`: the tick equals its
pointwise specification — whole-tick failures in steps (1)-(4) (empty grid,
chief not ok or without frame-id, frame snapshot not ok, unresolved mean
motion) return the publisher untouched with no publish, and once all four
succeed the back buffer's rows are rewritten pointwise (row `i` from vehicle
`i`'s own inputs and that row's prior content only) and exactly one publish
ends the tick; the sequence number advances by exactly one on a publishing
tick and is unchanged otherwise; an unmapped index leaves its row unchanged;
and every per-vehicle failure (deputy provider non-ok, null deputy frame-id,
frame-id mismatch with the chief, or model failure) leaves that vehicle's
row unchanged, skipping only that vehicle. -/
theorem predictor_step_publish_and_row_isolation (pub : Publisher)
    (ids : List ℕ) (chiefGet : Fd → ChiefState)
    (vehGet : ℕ → Fd → VehicleState)
    (bullseyeUpdate : Fd → BullseyeFrameSnapshot) (t0 : Fd)
    (horizon_sec cadence_sec : ℝ) :
    RelativePredictor.step pub ids chiefGet vehGet bullseyeUpdate t0
        horizon_sec cadence_sec =
      stepSpec pub ids chiefGet vehGet bullseyeUpdate t0 horizon_sec
        cadence_sec ∧
    (RelativePredictor.step pub ids chiefGet vehGet bullseyeUpdate t0
        horizon_sec cadence_sec).seqno =
      pub.seqno +
        (if tickPublishes (make_time_grid horizon_sec cadence_sec)
            (chiefGet t0) (bullseyeUpdate t0) then 1 else 0) ∧
    (∀ (n : ℝ) (i : ℕ) (row : List Vec3), ids[i]? = none →
      predictorRowFn (chiefGet t0) (bullseyeUpdate t0) n
        (make_time_grid horizon_sec cadence_sec)
        (min (make_time_grid horizon_sec cadence_sec).length MAX_STEPS)
        vehGet t0 ids i row = row) ∧
    (∀ (n : ℝ) (i vid : ℕ) (row : List Vec3), ids[i]? = some vid →
      min (make_time_grid horizon_sec cadence_sec).length MAX_STEPS ≤
        row.length →
      vehicleSkips (chiefGet t0) (bullseyeUpdate t0) n
        (make_time_grid horizon_sec cadence_sec)
        (min (make_time_grid horizon_sec cadence_sec).length MAX_STEPS)
        (vehGet vid t0) row →
      predictorRowFn (chiefGet t0) (bullseyeUpdate t0) n
        (make_time_grid horizon_sec cadence_sec)
        (min (make_time_grid horizon_sec cadence_sec).length MAX_STEPS)
        vehGet t0 ids i row = row) := by
  have hmain : RelativePredictor.step pub ids chiefGet vehGet bullseyeUpdate
      t0 horizon_sec cadence_sec =
      stepSpec pub ids chiefGet vehGet bullseyeUpdate t0 horizon_sec
        cadence_sec := by
    simp only [RelativePredictor.step, stepSpec]
    cases hn : compute_mean_motion (chiefGet t0) (bullseyeUpdate t0) with
    | none =>
      dsimp only
      split_ifs <;> rfl
    | some n =>
      dsimp only
      by_cases hg : make_time_grid horizon_sec cadence_sec = []
      · rw [if_pos hg, if_neg (fun ht => ht.1 hg)]
      · rw [if_neg hg]
        by_cases hc : ¬(chiefGet t0).status.ok ∨ (chiefGet t0).frame_id = none
        · have hnt : ¬tickPublishes (make_time_grid horizon_sec cadence_sec)
              (chiefGet t0) (bullseyeUpdate t0) := by
            intro ht
            rcases hc with h | h
            · exact h ht.2.1
            · exact ht.2.2.1 h
          rw [if_pos hc, if_neg hnt]
        · rw [if_neg hc]
          by_cases hf : ¬(bullseyeUpdate t0).status.ok
          · have hnt : ¬tickPublishes (make_time_grid horizon_sec cadence_sec)
                (chiefGet t0) (bullseyeUpdate t0) := fun ht => hf ht.2.2.2.1
            rw [if_pos hf, if_neg hnt]
          · have htick : tickPublishes (make_time_grid horizon_sec cadence_sec)
                (chiefGet t0) (bullseyeUpdate t0) := by
              refine ⟨hg, not_not.mp (not_or.mp hc).1, (not_or.mp hc).2,
                not_not.mp hf, ?_⟩
              rw [hn]
              rfl
            rw [if_neg hf, if_pos htick]
            rw [predictor_fold_pointwise (chiefGet t0) (bullseyeUpdate t0) n
              (make_time_grid horizon_sec cadence_sec)
              (min (make_time_grid horizon_sec cadence_sec).length MAX_STEPS)
              vehGet t0 ids (min ids.length MAX_VEHICLES)
              pub.begin_write.positions]
  refine ⟨hmain, ?_, ?_, ?_⟩
  · rw [hmain]
    simp only [stepSpec]
    cases hn : compute_mean_motion (chiefGet t0) (bullseyeUpdate t0) with
    | none =>
      dsimp only
      have hnt : ¬tickPublishes (make_time_grid horizon_sec cadence_sec)
          (chiefGet t0) (bullseyeUpdate t0) := by
        intro ht
        have h5 := ht.2.2.2.2
        rw [hn] at h5
        exact absurd h5 (by simp)
      rw [if_neg hnt]
      exact (Nat.add_zero _).symm
    | some n =>
      dsimp only
      by_cases htick : tickPublishes (make_time_grid horizon_sec cadence_sec)
          (chiefGet t0) (bullseyeUpdate t0)
      · rw [if_pos htick, if_pos htick]
        simp [Publisher.publish, Publisher.fill_back]
      · rw [if_neg htick, if_neg htick]
        exact (Nat.add_zero _).symm
  · intro n i row hnone
    simp only [predictorRowFn, hnone]
  · intro n i vid row hvid hlen hskip
    simp only [predictorRowFn, hvid]
    rcases hskip with hbad | hbad | hbad | hbad
    · rw [if_pos (Or.inl hbad)]
    · rw [if_pos (Or.inr hbad)]
    · by_cases h1 : ¬(vehGet vid t0).status.ok ∨ (vehGet vid t0).frame_id = none
      · rw [if_pos h1]
      · rw [if_neg h1, if_pos hbad]
    · by_cases h1 : ¬(vehGet vid t0).status.ok ∨ (vehGet vid t0).frame_id = none
      · rw [if_pos h1]
      · rw [if_neg h1]
        by_cases h2 : (vehGet vid t0).frame_id ≠ (chiefGet t0).frame_id
        · rw [if_pos h2]
        · rw [if_neg h2]
          simp only [vehicleModelCall] at hbad ⊢
          rw [predict_hcw_fail_spans _ _ _ _ _
            (make_time_grid_good horizon_sec cadence_sec) hbad,
            Option.getD_some, padTake_append_drop row _ hlen]

end

end OB
